import Mathlib

/-!
# Verification of the md2pdf artifact pipeline (`src/md2pdf.py`)

A shallow embedding of the artifact extraction / repair / rendering pipeline
of `md2pdf.py`.  Text is modelled as `List Char`; Python's `re.sub` passes
are modelled by deterministic left-to-right scanners that mirror the concrete
patterns used by the source (all of which are anchored on literal substrings,
so their matching behaviour is deterministic and is reproduced exactly,
including the backtracking of `\s+` in front of a negative lookahead).
-/

set_option maxRecDepth 10000

namespace Md2Pdf

/-- Coerce a string literal to the `List Char` representation used throughout. -/
def lc (s : String) : List Char := s.data

/-- The apostrophe character (written via its code point). -/
def sq : Char := Char.ofNat 39

/-- The opening-brace character `\x7b`. -/
def obr : Char := Char.ofNat 123

/-- The closing-brace character `\x7d`. -/
def cbr : Char := Char.ofNat 125

/-- ASCII whitespace as recognised by Python's `str.strip` / `\s`
(the inputs handled by the pipeline only contain ASCII whitespace). -/
def isPyWs (c : Char) : Bool :=
  c = ' ' || c = '\t' || c = '\n' || c = '\x0d' || c = '\x0b' || c = '\x0c'

/-- Python `str.strip()`: drop leading and trailing whitespace. -/
def pyStrip (s : List Char) : List Char :=
  ((s.dropWhile isPyWs).reverse.dropWhile isPyWs).reverse

/-- Python `s.split('\n')` (also the line decomposition used by `re`-free code). -/
def splitNewline : List Char → List (List Char)
  | [] => [[]]
  | c :: cs =>
    let r := splitNewline cs
    if c = '\n' then [] :: r
    else
      match r with
      | [] => [[c]]
      | l :: ls => (c :: l) :: ls

/-- Join lines with `'\n'` (inverse of `splitNewline`), i.e. `'\n'.join`. -/
def joinNewline : List (List Char) → List Char
  | [] => []
  | [l] => l
  | l :: ls => l ++ '\n' :: joinNewline ls

/-- Python's substring test `pat in s` (contiguous substring). -/
def hasSub (pat : List Char) : List Char → Bool
  | [] => pat.isPrefixOf []
  | c :: cs => pat.isPrefixOf (c :: cs) || hasSub pat cs

/-- Split off the first occurrence of `sep`: returns the part before it and
the part after it (with `sep` consumed). -/
def findSub (sep : List Char) : List Char → Option (List Char × List Char)
  | [] => if sep.isPrefixOf ([] : List Char) then some ([], []) else none
  | c :: cs =>
    if sep.isPrefixOf (c :: cs) then some ([], (c :: cs).drop sep.length)
    else
      match findSub sep cs with
      | some (b, a) => some (c :: b, a)
      | none => none

/-- Fuel-driven core of Python `s.split(sep)` for a non-empty separator. -/
def splitOnSubF (sep : List Char) : Nat → List Char → List (List Char)
  | 0, s => [s]
  | fuel + 1, s =>
    match findSub sep s with
    | none => [s]
    | some (b, a) => b :: splitOnSubF sep fuel a

/-- Python `s.split(sep)` for a non-empty separator. -/
def splitOnSub (sep s : List Char) : List (List Char) :=
  splitOnSubF sep (s.length + 1) s

/-- Python `s.split(' ', 2)`: split on single spaces, at most two splits. -/
def pySplitSpace2 (s : List Char) : List (List Char) :=
  match findSub [' '] s with
  | none => [s]
  | some (b, a) =>
    match findSub [' '] a with
    | none => [b, a]
    | some (b2, a2) => [b, b2, a2]

/-- Count of non-overlapping occurrences of a (non-empty) pattern, scanning
left to right — Python `s.count(pat)`. -/
def countOccF (pat : List Char) : Nat → List Char → Nat
  | 0, _ => 0
  | _ + 1, [] => 0
  | fuel + 1, c :: cs =>
    if pat.isPrefixOf (c :: cs) then
      countOccF pat fuel ((c :: cs).drop pat.length) + 1
    else countOccF pat fuel cs

/-- Python `s.count(pat)` for non-empty `pat`. -/
def countOcc (pat s : List Char) : Nat := countOccF pat (s.length + 1) s

/-- A matcher tries to recognise a pattern at the head of the text; on success
it returns the number of consumed characters (always positive for the
patterns in this file) and the replacement text. -/
def Matcher : Type := List Char → Option (Nat × List Char)

/-- Fuel-driven core of `re.sub`: scan left to right, replacing each
non-overlapping match and never rescanning replacement text. -/
def rsubF (m : Matcher) : Nat → List Char → List Char
  | 0, s => s
  | _ + 1, [] => []
  | fuel + 1, c :: cs =>
    match m (c :: cs) with
    | some (n, r) => r ++ rsubF m fuel (List.drop (n - 1) cs)
    | none => c :: rsubF m fuel cs

/-- `re.sub` with a matcher whose matches consume at least one character. -/
def rsub (m : Matcher) (s : List Char) : List Char := rsubF m (s.length + 1) s

/-- Fuel-driven core of `re.search`-as-existence for a matcher. -/
def msearchF (m : Matcher) : Nat → List Char → Bool
  | 0, _ => false
  | _ + 1, [] => (m []).isSome
  | fuel + 1, c :: cs => (m (c :: cs)).isSome || msearchF m fuel cs

/-- `re.search(pattern, s) is not None` for a matcher. -/
def msearch (m : Matcher) (s : List Char) : Bool := msearchF m (s.length + 1) s

/-- Python `s.replace(pat, rep)` for a non-empty `pat`. -/
def pyReplace (pat rep s : List Char) : List Char :=
  rsub (fun t => if pat.isPrefixOf t then some (pat.length, rep) else none) s

/-- Insertion into a Python `dict` (insertion-ordered; assigning to an
existing key overwrites its value but keeps its position). -/
def dictInsert (m : List (List Char × α)) (k : List Char) (v : α) :
    List (List Char × α) :=
  if m.any (fun p => decide (p.1 = k)) then
    m.map (fun p => if p.1 = k then (k, v) else p)
  else m ++ [(k, v)]

/-- Python `d[k]` / `k in d` combined: first (unique) binding of `k`. -/
def dictLookup (m : List (List Char × α)) (k : List Char) : Option α :=
  (m.find? (fun p => decide (p.1 = k))).map (·.2)

/-- Python `d.update(d2)`: each binding of `d2`, in order, overwrites the
value in place when the key exists and appends otherwise. -/
def dictUpdate (m m2 : List (List Char × α)) : List (List Char × α) :=
  m2.foldl (fun acc p => dictInsert acc p.1 p.2) m

/-- Decimal representation of a natural number (digit characters). -/
def natToCharsF : Nat → Nat → List Char
  | 0, _ => []
  | _ + 1, 0 => []
  | fuel + 1, n =>
    natToCharsF fuel (n / 10) ++ [Char.ofNat (48 + n % 10)]

/-- Decimal representation of a natural number, as Python's `str`. -/
def natToChars (n : Nat) : List Char :=
  if n = 0 then ['0'] else natToCharsF (n + 1) n

/-! ## Artifact records and tagged-block extraction (`extract_artifacts`) -/

/-- An artifact record, as stored in the `artifacts` dictionary by
`artifact_replacer` / `svg_replacer` / `mermaid_replacer`. -/
structure ChatArtifact where
  id : List Char
  version : List Char
  type : List Char
  title : List Char
  content : List Char
deriving DecidableEq

/-- The four attributes and the body of one `<chat-artifact … >…</chat-artifact>`
block, as captured by the groups of the extraction pattern
`<chat-artifact\s+id="([^"]+)"\s+version="([^"]+)"\s+type="([^"]+)"\s+title="([^"]+)">([\s\S]*?)</chat-artifact>`. -/
structure TaggedBlock where
  id : List Char
  version : List Char
  type : List Char
  title : List Char
  body : List Char
deriving DecidableEq

/-- The canonical concrete text of a tagged block (single-space attribute
separators; the pattern accepts any `\s+` there, which does not affect any
extracted value). -/
def renderTaggedBlock (b : TaggedBlock) : List Char :=
  lc "<chat-artifact id=\"" ++ b.id ++ lc "\" version=\"" ++ b.version ++
    lc "\" type=\"" ++ b.type ++ lc "\" title=\"" ++ b.title ++ lc "\">" ++
    b.body ++ lc "</chat-artifact>"

/-- The placeholder token line `[artifact:<id>]`. -/
def phLine (id : List Char) : List Char := lc "[artifact:" ++ id ++ lc "]"

/-- The text `artifact_replacer` substitutes for a block:
`"\n\n[artifact:{artifact_id}]\n\n"`. -/
def phChunk (id : List Char) : List Char := lc "\n\n" ++ phLine id ++ lc "\n\n"

/-- The record stored by `artifact_replacer`
(`content` is `match.group(5).strip()`). -/
def taggedRecord (b : TaggedBlock) : ChatArtifact :=
  { id := b.id, version := b.version, type := b.type, title := b.title,
    content := pyStrip b.body }

/-- A document made of well-formed tagged blocks, each preceded by a plain
text part, plus trailing plain text.  `re.sub` scans left to right and
replaces exactly these blocks by placeholders. -/
def TaggedDoc : Type := List (List Char × TaggedBlock) × List Char

/-- The raw document text represented by a `TaggedDoc`. -/
def taggedRaw : List (List Char × TaggedBlock) → List Char → List Char
  | [], trailing => trailing
  | (t, b) :: rest, trailing => t ++ renderTaggedBlock b ++ taggedRaw rest trailing

/-- Sanitized text produced by the tagged pass of `extract_artifacts`
(each block replaced in place by its placeholder chunk). -/
def taggedSanitized : List (List Char × TaggedBlock) → List Char → List Char
  | [], trailing => trailing
  | (t, b) :: rest, trailing => t ++ phChunk b.id ++ taggedSanitized rest trailing

/-- The `artifacts` dictionary populated by `artifact_replacer`, in match
order (Python `dict` insertion semantics). -/
def taggedArtifacts (pairs : List (List Char × TaggedBlock)) :
    List (List Char × ChatArtifact) :=
  pairs.foldl (fun m p => dictInsert m p.2.id (taggedRecord p.2)) []

/-- Matcher of the inline-math pass of `preprocess_latex_math`
(`re.sub(r'\$([^$]+?)\$', process_math, …)`, where `process_math` returns
`f"${math_content}$"`, i.e. the match itself). -/
def inlineMathMatcher : Matcher := fun s =>
  match s with
  | '$' :: r1 :: rest =>
    if r1 = '$' then none
    else
      match findSub ['$'] (r1 :: rest) with
      | none => none
      | some (b, _) => some (b.length + 2, '$' :: (b ++ ['$']))
  | _ => none

/-- Matcher of the display-math pass of `preprocess_latex_math`
(`re.sub(r'\$\$([\s\S]+?)\$\$', process_display_math, …)`, where the
replacement is again the match itself). -/
def displayMathMatcher : Matcher := fun s =>
  match s with
  | '$' :: '$' :: c :: rest =>
    match findSub (lc "$$") rest with
    | none => none
    | some (b, _) => some (b.length + 5, lc "$$" ++ (c :: b) ++ lc "$$")
  | _ => none

/-- `preprocess_latex_math`: both passes substitute each math match by
itself (see `preprocess_latex_math_id`). -/
def preprocess_latex_math (s : List Char) : List Char :=
  rsub displayMathMatcher (rsub inlineMathMatcher s)

/-- A well-formed attribute value: what one `([^"]+)` group can capture. -/
def goodAttr (v : List Char) : Prop := v ≠ [] ∧ '"' ∉ v

/-- A well-formed tagged block: every attribute present and capturable, and
the body does not end the block early. -/
def wfBlock (b : TaggedBlock) : Prop :=
  goodAttr b.id ∧ goodAttr b.version ∧ goodAttr b.type ∧ goodAttr b.title ∧
    hasSub (lc "</chat-artifact>") b.body = false

/-- Plain text containing no artifact form (no tagged block opener, no
inline vector markup, no fenced code block). -/
def plainText (t : List Char) : Prop :=
  hasSub (lc "<chat-artifact") t = false ∧ hasSub (lc "<svg") t = false ∧
    hasSub (lc "```") t = false

/-- A document containing `N` well-formed tagged blocks and no other
artifact forms. -/
def TaggedDocWF (d : TaggedDoc) : Prop :=
  (∀ p ∈ d.1, plainText p.1 ∧ wfBlock p.2) ∧ plainText d.2

instance (v : List Char) : Decidable (goodAttr v) := by
  unfold goodAttr; infer_instance

instance (b : TaggedBlock) : Decidable (wfBlock b) := by
  unfold wfBlock; infer_instance

instance (t : List Char) : Decidable (plainText t) := by
  unfold plainText; infer_instance

instance (d : TaggedDoc) : Decidable (TaggedDocWF d) := by
  unfold TaggedDocWF; infer_instance

/-! ## Placeholder resolution (`replace_artifacts_in_markdown`) -/

/-- The artifact MIME type dispatched to `process_svg_artifact`. -/
def svgMime : List Char := lc "image/svg+xml"

/-- The artifact MIME type dispatched to `process_mermaid_artifact`. -/
def mermaidMime : List Char := lc "application/vnd.chat.mermaid"

/-- `line.startswith('[artifact:') and line.endswith(']')` (applied to the
stripped line). -/
def isPlaceholderLine (s : List Char) : Bool :=
  (lc "[artifact:").isPrefixOf s && [']'].isSuffixOf s

/-- `line[10:-1]`: the id carried by a placeholder line. -/
def placeholderId (s : List Char) : List Char := (s.drop 10).dropLast

/-- Replacement text for an artifact of unsupported type. -/
def unsupportedNote (a : ChatArtifact) : List Char :=
  lc "*" ++ a.title ++ lc " (不支持的类型: " ++ a.type ++ lc ")*"

/-- The type dispatch of `replace_artifacts_in_markdown`; the two renderers
(`process_svg_artifact`, `process_mermaid_artifact`) perform file I/O and
are abstracted as parameters. -/
def renderArtifact (renderSvg renderMermaid : ChatArtifact → List Char)
    (a : ChatArtifact) : List Char :=
  if a.type = svgMime then renderSvg a
  else if a.type = mermaidMime then renderMermaid a
  else unsupportedNote a

/-- One iteration of the line loop of `replace_artifacts_in_markdown`. -/
def resolveLine (renderSvg renderMermaid : ChatArtifact → List Char)
    (artifacts : List (List Char × ChatArtifact)) (l : List Char) : List Char :=
  let s := pyStrip l
  if isPlaceholderLine s then
    match dictLookup artifacts (placeholderId s) with
    | some a => renderArtifact renderSvg renderMermaid a
    | none => s
  else l

/-- `replace_artifacts_in_markdown` (renderers abstracted): split into
lines, process each, join with `'\n'`. -/
def replace_artifacts_in_markdown (renderSvg renderMermaid : ChatArtifact → List Char)
    (md : List Char) (artifacts : List (List Char × ChatArtifact)) : List Char :=
  joinNewline ((splitNewline md).map (resolveLine renderSvg renderMermaid artifacts))

/-! ## SVG repair (`fix_svg_errors`): parsing helpers -/

/-- Consume a literal, or fail. -/
def dropLit (lit s : List Char) : Option (List Char) :=
  if lit.isPrefixOf s then some (s.drop lit.length) else none

/-- Consume a `\s+` run (at least one whitespace character); returns the run
and the rest. -/
def dropWs1 (s : List Char) : Option (List Char × List Char) :=
  let w := s.takeWhile isPyWs
  if w = [] then none else some (w, s.drop w.length)

/-- Consume `([^"]+)"` — an attribute value and its closing quote. -/
def takeAttrVal (s : List Char) : Option (List Char × List Char) :=
  let v := s.takeWhile (fun c => c ≠ '"')
  if v = [] then none
  else
    match s.drop v.length with
    | _ :: rest => some (v, rest)
    | [] => none

/-- Consume `name="` followed by an attribute value. -/
def parseAttr (name s : List Char) : Option (List Char × List Char) := do
  let s1 ← dropLit (name ++ lc "=\"") s
  takeAttrVal s1

/-- Consume `[^>]*?>` — everything up to and including the first `'>'`. -/
def takeToGt (s : List Char) : Option (List Char) :=
  let b := s.takeWhile (fun c => c ≠ '>')
  match s.drop b.length with
  | _ :: rest => some rest
  | [] => none

/-- Does `p` hold of some suffix (i.e. does the pattern match at some
position)? -/
def scanExists (p : List Char → Bool) : Nat → List Char → Bool
  | 0, _ => false
  | _ + 1, [] => p []
  | fuel + 1, c :: cs => p (c :: cs) || scanExists p fuel cs

/-- First successful application of `p` to a suffix, scanning left to right
(`re.search`). -/
def scanFirst (p : List Char → Option α) : Nat → List Char → Option α
  | 0, _ => none
  | _ + 1, [] => p []
  | fuel + 1, c :: cs =>
    match p (c :: cs) with
    | some a => some a
    | none => scanFirst p fuel cs

/-! ## SVG repair step 1: line-attribute fixes -/

/-- Matcher of
`x1="([^"]+)"\s+y1="([^"]+)"\s+x2="([^"]+)"\s+y1="([^"]+)"\s+x2="([^"]+)"`,
replaced by `x1="\1" y1="\2" x2="\3" y2="\4"` (the duplicated-attribute fix). -/
def lineFixDup1Matcher : Matcher := fun s0 => do
  let (v1, s) ← parseAttr (lc "x1") s0
  let (_, s) ← dropWs1 s
  let (v2, s) ← parseAttr (lc "y1") s
  let (_, s) ← dropWs1 s
  let (v3, s) ← parseAttr (lc "x2") s
  let (_, s) ← dropWs1 s
  let (v4, s) ← parseAttr (lc "y1") s
  let (_, s) ← dropWs1 s
  let (_, s) ← parseAttr (lc "x2") s
  pure (s0.length - s.length,
    lc "x1=\"" ++ v1 ++ lc "\" y1=\"" ++ v2 ++ lc "\" x2=\"" ++ v3 ++
      lc "\" y2=\"" ++ v4 ++ lc "\"")

/-- Matcher of
`x1="([^"]+)"\s+y1="([^"]+)"\s+x2="([^"]+)"\s+x2="([^"]+)"\s+y2="([^"]+)"`,
replaced by `x1="\1" y1="\2" x2="\3" y2="\5"`. -/
def lineFixDup2Matcher : Matcher := fun s0 => do
  let (v1, s) ← parseAttr (lc "x1") s0
  let (_, s) ← dropWs1 s
  let (v2, s) ← parseAttr (lc "y1") s
  let (_, s) ← dropWs1 s
  let (v3, s) ← parseAttr (lc "x2") s
  let (_, s) ← dropWs1 s
  let (_, s) ← parseAttr (lc "x2") s
  let (_, s) ← dropWs1 s
  let (v5, s) ← parseAttr (lc "y2") s
  pure (s0.length - s.length,
    lc "x1=\"" ++ v1 ++ lc "\" y1=\"" ++ v2 ++ lc "\" x2=\"" ++ v3 ++
      lc "\" y2=\"" ++ v5 ++ lc "\"")

/-- The `\s+` run in front of the negative lookahead `(?!y2=)`: the run is
greedy, and when the text right after it starts with `y2=` the engine
backtracks one whitespace character (after which the lookahead sees a
whitespace character and succeeds); a single-character run cannot backtrack
and the match fails. Returns (whitespace kept inside group 1, rest including
the possibly given-back character). -/
def wsBeforeNotY2 (s : List Char) : Option (List Char × List Char) := do
  let (w, rest) ← dropWs1 s
  if (lc "y2=").isPrefixOf rest then
    if w.length = 1 then none
    else some (w.dropLast, w.drop (w.length - 1) ++ rest)
  else some (w, rest)

/-- Matcher of
`(<line\s+x1="([^"]+)"\s+y1="([^"]+)"\s+x2="([^"]+)"\s+)(?!y2=)([^>]*?>)`,
replaced by `\1y2="\3" \5` — the "horizontal line missing `y2`" fix, which
sets `y2` to the `y1` value. -/
def lineMissingY2HMatcher : Matcher := fun s0 => do
  let s ← dropLit (lc "<line") s0
  let (w0, s) ← dropWs1 s
  let (v1, s) ← parseAttr (lc "x1") s
  let (w1, s) ← dropWs1 s
  let (v2, s) ← parseAttr (lc "y1") s
  let (w2, s) ← dropWs1 s
  let (v3, s) ← parseAttr (lc "x2") s
  let (w3, s) ← wsBeforeNotY2 s
  let rest ← takeToGt s
  let n := s0.length - rest.length
  let g1 := lc "<line" ++ w0 ++ lc "x1=\"" ++ v1 ++ lc "\"" ++ w1 ++
    lc "y1=\"" ++ v2 ++ lc "\"" ++ w2 ++ lc "x2=\"" ++ v3 ++ lc "\"" ++ w3
  let g5 := (s0.take n).drop (g1.length)
  pure (n, g1 ++ lc "y2=\"" ++ v2 ++ lc "\" " ++ g5)

/-- Matcher of
`(<line\s+x1="([^"]+)"\s+y1="([^"]+)"\s+x2="\2"\s+)(?!y2=)([^>]*?>)`,
replaced by `\1y2="50" \4` — the "vertical line missing `y2`" fix
(`x2` is constrained by back-reference to equal the `x1` value). -/
def lineMissingY2VMatcher : Matcher := fun s0 => do
  let s ← dropLit (lc "<line") s0
  let (w0, s) ← dropWs1 s
  let (v1, s) ← parseAttr (lc "x1") s
  let (w1, s) ← dropWs1 s
  let (v2, s) ← parseAttr (lc "y1") s
  let (w2, s) ← dropWs1 s
  let s ← dropLit (lc "x2=\"" ++ v1 ++ lc "\"") s
  let (w3, s) ← wsBeforeNotY2 s
  let rest ← takeToGt s
  let n := s0.length - rest.length
  let g1 := lc "<line" ++ w0 ++ lc "x1=\"" ++ v1 ++ lc "\"" ++ w1 ++
    lc "y1=\"" ++ v2 ++ lc "\"" ++ w2 ++ lc "x2=\"" ++ v1 ++ lc "\"" ++ w3
  let g4 := (s0.take n).drop (g1.length)
  pure (n, g1 ++ lc "y2=\"50\" " ++ g4)

/-- Step 1 of `fix_svg_errors`: the four `re.sub` line fixes, in source
order. -/
def fixSvgStep1 (s : List Char) : List Char :=
  rsub lineMissingY2VMatcher
    (rsub lineMissingY2HMatcher
      (rsub lineFixDup2Matcher
        (rsub lineFixDup1Matcher s)))

/-! ## SVG repair step 2: LaTeX translation inside `<text>` elements -/

/-- Consume `([^}]+)}` — a non-empty brace-free argument and its closing
brace. -/
def takeBraceArg (s : List Char) : Option (List Char × List Char) :=
  let v := s.takeWhile (fun c => c ≠ cbr)
  if v = [] then none
  else
    match s.drop v.length with
    | _ :: rest => some (v, rest)
    | [] => none

/-- `re.sub` of a pattern `lit([^}]+)}` with a replacement built from the
group. -/
def subLitBrace (lit : List Char) (mk : List Char → List Char)
    (s : List Char) : List Char :=
  rsub (fun t => do
    let t1 ← dropLit lit t
    let (v, t2) ← takeBraceArg t1
    pure (t.length - t2.length, mk v)) s

/-- `re.sub` of `begin(.*?)end` (DOTALL, lazy) with a constant replacement. -/
def subBeginEnd (beginLit endLit rep : List Char) (s : List Char) : List Char :=
  rsub (fun t => do
    let t1 ← dropLit beginLit t
    let (_, t2) ← findSub endLit t1
    pure (t.length - t2.length, rep)) s

/-- The matrix-environment names of
`(?:p?matrix|bmatrix|Bmatrix|vmatrix|Vmatrix)`, in alternation order. -/
def matrixAlts : List (List Char) :=
  [lc "pmatrix", lc "matrix", lc "bmatrix", lc "Bmatrix", lc "vmatrix",
    lc "Vmatrix"]

/-- Consume one matrix-environment alternative followed by `}`. -/
def dropAltBrace : List (List Char) → List Char → Option (List Char)
  | [], _ => none
  | a :: rest, s =>
    match dropLit (a ++ [cbr]) s with
    | some r => some r
    | none => dropAltBrace rest s

/-- Find the earliest `\end{<matrix-alt>}` and return the rest after it. -/
def findMatrixEnd : Nat → List Char → Option (List Char)
  | 0, _ => none
  | _ + 1, [] => none
  | fuel + 1, c :: cs =>
    match dropLit (lc "\\end\x7b") (c :: cs) with
    | some r =>
      match dropAltBrace matrixAlts r with
      | some r2 => some r2
      | none => findMatrixEnd fuel cs
    | none => findMatrixEnd fuel cs

/-- `re.sub` of the general matrix environment
`\\begin{(?:p?matrix|…)}(.*?)\\end{(?:p?matrix|…)}` (DOTALL) by `[矩阵]`
(the `simplify_matrix` replacement). -/
def subMatrixGeneral (s : List Char) : List Char :=
  rsub (fun t => do
    let t1 ← dropLit (lc "\\begin\x7b") t
    let t2 ← dropAltBrace matrixAlts t1
    let t3 ← findMatrixEnd (t2.length + 1) t2
    pure (t.length - t3.length, lc "[矩阵]")) s

/-- `re.sub` of `\\begin{pmatrix}([^\\]+)\\end{pmatrix}` by `(\1)`. -/
def subPmatrixRow (s : List Char) : List Char :=
  rsub (fun t => do
    let t1 ← dropLit (lc "\\begin\x7bpmatrix\x7d") t
    let v := t1.takeWhile (fun c => c ≠ '\\')
    if v = [] then none
    else do
      let t2 ← dropLit (lc "\\end\x7bpmatrix\x7d") (t1.drop v.length)
      pure (t.length - t2.length, '(' :: (v ++ [')']))) s

/-- The opening tag counted by the balance check. -/
def tspanLit : List Char := lc "<tspan"

/-- The closing tag counted by the balance check. -/
def tspanCloseLit : List Char := lc "</tspan>"

/-- `<tspan font-weight="bold">`. -/
def boldOpen : List Char := lc "<tspan font-weight=\"bold\">"

/-- `<tspan font-style="italic" text-decoration="overline">`. -/
def vecOpen : List Char := lc "<tspan font-style=\"italic\" text-decoration=\"overline\">"

/-- `<tspan font-style="italic">`. -/
def italOpen : List Char := lc "<tspan font-style=\"italic\">"

/-- `<tspan font-family="serif" font-style="italic">`. -/
def serifItalOpen : List Char := lc "<tspan font-family=\"serif\" font-style=\"italic\">"

/-- `<tspan baseline-shift="super" dy="-0.5em" font-size="0.8em">`. -/
def supOpen : List Char := lc "<tspan baseline-shift=\"super\" dy=\"-0.5em\" font-size=\"0.8em\">"

/-- `<tspan baseline-shift="sub" dy="0.3em" font-size="0.8em">`. -/
def subOpen : List Char := lc "<tspan baseline-shift=\"sub\" dy=\"0.3em\" font-size=\"0.8em\">"

/-- A superscript span. -/
def supSpan (v : List Char) : List Char := supOpen ++ v ++ tspanCloseLit

/-- A subscript span. -/
def subSpan (v : List Char) : List Char := subOpen ++ v ++ tspanCloseLit

/-- The balance-repair loop: append one `</tspan>` per unmatched `<tspan`
(`for _ in range(open_tspans - close_tspans)`). -/
def balanceAppend (s : List Char) : List Char :=
  s ++ (List.replicate (countOcc tspanLit s - countOcc tspanCloseLit s)
    tspanCloseLit).flatten

/-- `re.sub(r'\$([^$]+?)\$', replace_latex_formula, …)`: wrap each inline
formula in an italic serif span, except that a formula already starting
with `<tspan` is put back unchanged (dollars included). -/
def replaceLatexFormulaSub (s : List Char) : List Char :=
  rsub (fun t =>
    match t with
    | '$' :: r1 :: rest =>
      if r1 = '$' then none
      else
        match findSub ['$'] (r1 :: rest) with
        | none => none
        | some (b, _) =>
          some (b.length + 2,
            if tspanLit.isPrefixOf b then '$' :: (b ++ ['$'])
            else serifItalOpen ++ b ++ tspanCloseLit)
    | _ => none) s

/-- ASCII letter or digit (the class `[a-zA-Z0-9]`). -/
def isAsciiAlnum (c : Char) : Bool :=
  ('a' ≤ c && c ≤ 'z') || ('A' ≤ c && c ≤ 'Z') || ('0' ≤ c && c ≤ '9')

/-- `re.sub(r'\^([a-zA-Z0-9])', …)`: single-character superscript. -/
def subCaretChar (s : List Char) : List Char :=
  rsub (fun t =>
    match t with
    | '^' :: c :: _ => if isAsciiAlnum c then some (2, supSpan [c]) else none
    | _ => none) s

/-- `re.sub(r'_([a-zA-Z0-9])', …)`: single-character subscript. -/
def subUnderscoreChar (s : List Char) : List Char :=
  rsub (fun t =>
    match t with
    | '_' :: c :: _ => if isAsciiAlnum c then some (2, subSpan [c]) else none
    | _ => none) s

/-- The prime-and-symbol substitution table applied after formula wrapping
(source order preserved; `′ (U+2032)` first, then Greek letters, then math
symbols). -/
def latexSymbolTable : List (List Char × List Char) :=
  [(lc "\u2032", lc "\x27"),
   (lc "\\alpha", lc "α"), (lc "\\beta", lc "β"), (lc "\\gamma", lc "γ"),
   (lc "\\Gamma", lc "Γ"), (lc "\\Delta", lc "Δ"), (lc "\\delta", lc "δ"),
   (lc "\\epsilon", lc "ε"), (lc "\\varepsilon", lc "ε"), (lc "\\zeta", lc "ζ"),
   (lc "\\eta", lc "η"), (lc "\\theta", lc "θ"), (lc "\\Theta", lc "Θ"),
   (lc "\\vartheta", lc "ϑ"), (lc "\\iota", lc "ι"), (lc "\\kappa", lc "κ"),
   (lc "\\lambda", lc "λ"), (lc "\\Lambda", lc "Λ"), (lc "\\mu", lc "μ"),
   (lc "\\nu", lc "ν"), (lc "\\xi", lc "ξ"), (lc "\\Xi", lc "Ξ"),
   (lc "\\pi", lc "π"), (lc "\\Pi", lc "Π"), (lc "\\rho", lc "ρ"),
   (lc "\\varrho", lc "ϱ"), (lc "\\sigma", lc "σ"), (lc "\\Sigma", lc "Σ"),
   (lc "\\tau", lc "τ"), (lc "\\upsilon", lc "υ"), (lc "\\Upsilon", lc "Υ"),
   (lc "\\phi", lc "φ"), (lc "\\Phi", lc "Φ"), (lc "\\varphi", lc "φ"),
   (lc "\\chi", lc "χ"), (lc "\\psi", lc "ψ"), (lc "\\Psi", lc "Ψ"),
   (lc "\\omega", lc "ω"), (lc "\\Omega", lc "Ω"),
   (lc "\\infty", lc "∞"), (lc "\\pm", lc "±"), (lc "\\mp", lc "∓"),
   (lc "\\approx", lc "≈"), (lc "\\sim", lc "∼"), (lc "\\cong", lc "≅"),
   (lc "\\neq", lc "≠"), (lc "\\ne", lc "≠"), (lc "\\leq", lc "≤"),
   (lc "\\le", lc "≤"), (lc "\\geq", lc "≥"), (lc "\\ge", lc "≥"),
   (lc "\\ll", lc "≪"), (lc "\\gg", lc "≫"), (lc "\\subset", lc "⊂"),
   (lc "\\supset", lc "⊃"), (lc "\\subseteq", lc "⊆"), (lc "\\supseteq", lc "⊇"),
   (lc "\\cup", lc "∪"), (lc "\\cap", lc "∩"), (lc "\\emptyset", lc "∅"),
   (lc "\\in", lc "∈"), (lc "\\notin", lc "∉"), (lc "\\cdot", lc "·"),
   (lc "\\times", lc "×"), (lc "\\div", lc "÷"), (lc "\\circ", lc "○"),
   (lc "\\bullet", lc "•"), (lc "\\oplus", lc "⊕"), (lc "\\otimes", lc "⊗"),
   (lc "\\perp", lc "⊥"), (lc "\\parallel", lc "∥"), (lc "\\forall", lc "∀"),
   (lc "\\exists", lc "∃"), (lc "\\nexists", lc "∄"), (lc "\\therefore", lc "∴"),
   (lc "\\because", lc "∵"), (lc "\\leftarrow", lc "←"), (lc "\\rightarrow", lc "→"),
   (lc "\\to", lc "→"), (lc "\\Rightarrow", lc "⇒"), (lc "\\Leftarrow", lc "⇐"),
   (lc "\\iff", lc "⇔"), (lc "\\mapsto", lc "↦"), (lc "\\uparrow", lc "↑"),
   (lc "\\downarrow", lc "↓"), (lc "\\updownarrow", lc "↕"), (lc "\\Uparrow", lc "⇑"),
   (lc "\\Downarrow", lc "⇓"), (lc "\\Updownarrow", lc "⇕"), (lc "\\ldots", lc "…"),
   (lc "\\cdots", lc "⋯"), (lc "\\vdots", lc "⋮"), (lc "\\ddots", lc "⋱"),
   (lc "\\square", lc "□"), (lc "\\checkmark", lc "✓"), (lc "\\nabla", lc "∇"),
   (lc "\\prime", lc "′"), (lc "\\int", lc "∫"), (lc "\\iint", lc "∬"),
   (lc "\\iiint", lc "∭"), (lc "\\oint", lc "∮"), (lc "\\sum", lc "∑"),
   (lc "\\prod", lc "∏"), (lc "\\coprod", lc "∐"), (lc "\\partial", lc "∂"),
   (lc "\\Re", lc "ℜ"), (lc "\\Im", lc "ℑ"), (lc "\\aleph", lc "ℵ")]

/-- Apply a table of `str.replace` substitutions in order. -/
def applyReplacePairs (ps : List (List Char × List Char)) (s : List Char) :
    List Char :=
  ps.foldl (fun t p => pyReplace p.1 p.2 t) s

/-- The body of the `try` block of `replace_latex_in_text`: the complete
substitution chain applied to one text element's content, in source order.
(The pattern `\\int_{([^}]+)}\\^{([^}]+)}` of the source contains an
unescaped mid-pattern `^` anchor preceded by a required literal backslash
and therefore never matches; it contributes no step.)  None of the steps can
raise, so the `except` branch is unreachable. -/
def translateLatex (c0 : List Char) : List Char :=
  let c := pyReplace (lc "\\mathbf\x7b") boldOpen c0
  let c := pyReplace (lc "\\textbf\x7b") boldOpen c
  let c := pyReplace (lc "\\vec\x7b") vecOpen c
  let c := pyReplace (lc "\\overrightarrow\x7b") vecOpen c
  let c := pyReplace (lc "\\mathit\x7b") italOpen c
  let c := pyReplace (lc "\\psi") (lc "ψ") c
  let c := subLitBrace (lc "\\tilde\x7b")
    (fun v => serifItalOpen ++ '~' :: (v ++ tspanCloseLit)) c
  let c := subLitBrace (lc "\\hat\x7b")
    (fun v => serifItalOpen ++ '^' :: (v ++ tspanCloseLit)) c
  let c := pyReplace (lc "\\psi^*") (lc "ψ" ++ supSpan (lc "*")) c
  let c := pyReplace (lc "\\tilde\x7b\\psi\x7d^*") (lc "~ψ" ++ supSpan (lc "*")) c
  let c := pyReplace (lc "\\hbar") (lc "ℏ") c
  let c := pyReplace (lc "\\langle") (lc "⟨") c
  let c := pyReplace (lc "\\rangle") (lc "⟩") c
  let c := subLitBrace (lc "e^\x7b") (fun v => 'e' :: supSpan v) c
  let c := pyReplace (lc "\\i") (lc "i") c
  let c := pyReplace (lc "-i\\hbar") (lc "-iℏ") c
  let c := pyReplace (lc "i\\hbar") (lc "iℏ") c
  let c := subLitBrace (lc "\\text\x7b") (fun v => v) c
  let c := pyReplace (lc "\\left") [] c
  let c := pyReplace (lc "\\right") [] c
  let c := pyReplace (lc "\\quad") (lc " ") c
  let c := pyReplace (lc "\\;") (lc " ") c
  let c := pyReplace (lc "\\nabla") (lc "∇") c
  let c := pyReplace (lc "\\partial") (lc "∂") c
  let c := subBeginEnd (lc "\\begin\x7bvmatrix\x7d") (lc "\\end\x7bvmatrix\x7d")
    (lc "|𝑑𝑒𝑡|") c
  let c := subBeginEnd (lc "\\begin\x7bdeterminant\x7d") (lc "\\end\x7bdeterminant\x7d")
    (lc "|𝑑𝑒𝑡|") c
  let c := subMatrixGeneral c
  let c := subPmatrixRow c
  let c := pyReplace (lc "\\\x7b") [obr] c
  let c := pyReplace (lc "\\\x7d") [cbr] c
  let c := balanceAppend c
  let c := replaceLatexFormulaSub c
  let c := applyReplacePairs latexSymbolTable c
  let c := rsub (fun t => do
    let t1 ← dropLit (lc "\\frac\x7b") t
    let (a, t2) ← takeBraceArg t1
    let t3 ← dropLit [obr] t2
    let (b, t4) ← takeBraceArg t3
    pure (t.length - t4.length,
      serifItalOpen ++ '(' :: (a ++ lc ")/(") ++ b ++ ')' :: tspanCloseLit)) c
  let c := subLitBrace (lc "\\int_\x7b")
    (fun v => serifItalOpen ++ lc "∫" ++ subSpan v ++ tspanCloseLit) c
  let c := subLitBrace (lc "\\int^\x7b")
    (fun v => serifItalOpen ++ lc "∫" ++ supSpan v ++ tspanCloseLit) c
  let c := subLitBrace (lc "^\x7b") supSpan c
  let c := subLitBrace (lc "_\x7b") subSpan c
  let c := subCaretChar c
  let c := subUnderscoreChar c
  let c := pyReplace (lc "²") (supSpan (lc "2")) c
  let c := pyReplace (lc "³") (supSpan (lc "3")) c
  c

/-- `replace_latex_in_text` applied to a text element's content: contents
without `$` are returned untouched; otherwise the translation runs and is
discarded (original restored) when the final `<tspan` / `</tspan>` counts
disagree. -/
def replaceLatexContent (content : List Char) : List Char :=
  if hasSub ['$'] content = false then content
  else
    let t := translateLatex content
    if countOcc tspanLit t ≠ countOcc tspanCloseLit t then content else t

/-- Reassembly of one `<text…>…</text>` element by `replace_latex_in_text`
(`f'<text{text_attrs}>{text_content}</text>'`). -/
def renderTextEl (attrs content : List Char) : List Char :=
  lc "<text" ++ attrs ++ lc ">" ++ content ++ lc "</text>"

/-- One full text element processed by `replace_latex_in_text`. -/
def replace_latex_in_text (attrs content : List Char) : List Char :=
  renderTextEl attrs (replaceLatexContent content)

/-- Matcher of `<text([^>]*)>(.*?)</text>` (non-DOTALL: the content may not
contain a newline) with `replace_latex_in_text` as the replacement
function. -/
def lazyUntilNoNl (lit : List Char) : Nat → List Char → Option (List Char × List Char)
  | 0, _ => none
  | _ + 1, [] => none
  | fuel + 1, c :: cs =>
    if lit.isPrefixOf (c :: cs) then some ([], (c :: cs).drop lit.length)
    else if c = '\n' then none
    else
      match lazyUntilNoNl lit fuel cs with
      | some (b, a) => some (c :: b, a)
      | none => none

/-- The `<text>`-element pass of step 2 of `fix_svg_errors`. -/
def textElMatcher : Matcher := fun s0 => do
  let s1 ← dropLit (lc "<text") s0
  let attrs := s1.takeWhile (fun c => c ≠ '>')
  let s2 ← dropLit ['>'] (s1.drop attrs.length)
  let (content, s3) ← lazyUntilNoNl (lc "</text>") (s2.length + 1) s2
  pure (s0.length - s3.length, replace_latex_in_text attrs content)

/-! ## SVG repair: complex-formula style insertion -/

/-- The `math_style` CSS block inserted for complex formulas (exact text of
the triple-quoted literal). -/
def mathStyleBlock : List Char :=
  lc "\n<style type=\"text/css\">\n    .math \x7b font-family: \x27STIX Two Math\x27, \x27Latin Modern Math\x27, serif; \x7d\n    .math-italic \x7b font-style: italic; \x7d\n    .math-bold \x7b font-weight: bold; \x7d\n</style>\n"

/-- `'\begin{align}' in svg_code or '\begin{matrix}' in svg_code or
'\frac{' in svg_code` — the complex-formula detection. -/
def hasComplexFormula (s : List Char) : Bool :=
  hasSub (lc "\\begin\x7balign\x7d") s || hasSub (lc "\\begin\x7bmatrix\x7d") s ||
    hasSub (lc "\\frac\x7b") s

/-- `re.search(r'<svg([^>]*)>', …)` at one position: the attribute text. -/
def svgOpenAt (s : List Char) : Option (List Char) := do
  let s1 ← dropLit (lc "<svg") s
  let attrs := s1.takeWhile (fun c => c ≠ '>')
  match s1.drop attrs.length with
  | _ :: _ => some attrs
  | [] => none

/-- `re.search(r'<svg([^>]*)>', …)`: attributes of the first opening root
tag. -/
def searchSvgOpen (s : List Char) : Option (List Char) :=
  scanFirst svgOpenAt (s.length + 1) s

/-- `re.search(r'(<defs>.*?</defs>)', …, re.DOTALL)` at one position. -/
def defsAt (s : List Char) : Option (List Char) := do
  let s1 ← dropLit (lc "<defs>") s
  let (b, _) ← findSub (lc "</defs>") s1
  pure (lc "<defs>" ++ b ++ lc "</defs>")

/-- First `<defs>…</defs>` block (DOTALL, lazy). -/
def searchDefsBlock (s : List Char) : Option (List Char) :=
  scanFirst defsAt (s.length + 1) s

/-- The complex-formula branch of step 2: insert `math_style` into the
existing `<defs>` block, or create a fresh `<defs>` block after the opening
root tag. -/
def insertMathStyle (s : List Char) : List Char :=
  match searchSvgOpen s with
  | none => s
  | some attrs =>
    match searchDefsBlock s with
    | some defsContent =>
      pyReplace defsContent
        (pyReplace (lc "</defs>") (mathStyleBlock ++ lc "</defs>") defsContent) s
    | none =>
      let openTag := lc "<svg" ++ attrs ++ lc ">"
      pyReplace openTag
        (openTag ++ lc "\n<defs>" ++ mathStyleBlock ++ lc "</defs>") s

/-! ## SVG repair step 3: black-strip removal (figure 8 / figure 9 only) -/

/-- The caption substring identifying "figure 8". -/
def fig8Caption : List Char := lc "Cp参数与球间距离的理论关系"

/-- The caption substring identifying "figure 9". -/
def fig9Caption : List Char := lc "近场耦合区域Cp参数行为"

/-- The alternation `fill="(?:black|#000000|#000)"`, tried in order; returns
the rest after the closing quote. -/
def fillAt (s : List Char) : Option (List Char) := do
  let s1 ← dropLit (lc "fill=\"") s
  match dropLit (lc "black\"") s1 with
  | some r => some r
  | none =>
    match dropLit (lc "#000000\"") s1 with
    | some r => some r
    | none => dropLit (lc "#000\"") s1

/-- `[^>]*?fill="(?:black|#000000|#000)"`: lazy scan, retrying later
occurrences if the alternation fails, never crossing `'>'`. -/
def seekFill : Nat → List Char → Option (List Char)
  | 0, _ => none
  | _ + 1, [] => none
  | fuel + 1, c :: cs =>
    match fillAt (c :: cs) with
    | some rest => some rest
    | none => if c = '>' then none else seekFill fuel cs

/-- Matcher of the count pattern
`<rect[^>]*?fill="(?:black|#000000|#000)"[^>]*?>`. -/
def blackRectMatcher : Matcher := fun s0 => do
  let s1 ← dropLit (lc "<rect") s0
  let s2 ← seekFill (s1.length + 1) s1
  let s3 ← takeToGt s2
  let n := s0.length - s3.length
  pure (n, s0.take n)

/-- Count matches of a matcher, `re.findall`-style (non-overlapping,
continuing after each match). -/
def countMatchesF (m : Matcher) : Nat → List Char → Nat
  | 0, _ => 0
  | _ + 1, [] => 0
  | fuel + 1, c :: cs =>
    match m (c :: cs) with
    | some (n, _) => countMatchesF m fuel (List.drop (n - 1) cs) + 1
    | none => countMatchesF m fuel cs

/-- `len(re.findall(r'<rect[^>]*?fill="(?:black|#000000|#000)"[^>]*?>', s))`. -/
def countBlackRects (s : List Char) : Nat :=
  countMatchesF blackRectMatcher (s.length + 1) s

/-- `y="(1[5-8][0-9])"` at one position; returns the rest. -/
def y158At (s : List Char) : Option (List Char) := do
  let s1 ← dropLit (lc "y=\"") s
  match s1 with
  | d1 :: d2 :: d3 :: q :: rest =>
    if d1 = '1' && '5' ≤ d2 && d2 ≤ '8' && '0' ≤ d3 && d3 ≤ '9' && q = '"' then
      some rest
    else none
  | _ => none

/-- `[^>]*?y="(1[5-8][0-9])"`: lazy scan with retry, never crossing `'>'`. -/
def seekY158 : Nat → List Char → Option (List Char)
  | 0, _ => none
  | _ + 1, [] => none
  | fuel + 1, c :: cs =>
    match y158At (c :: cs) with
    | some rest => some rest
    | none => if c = '>' then none else seekY158 fuel cs

/-- Matcher of the positional special pattern
`<rect\s+[^>]*?y="(1[5-8][0-9])"[^>]*?fill="(?:black|#000000|#000)"[^>]*?>`,
replaced by the removal comment. -/
def specialStripMatcher : Matcher := fun s0 => do
  let s1 ← dropLit (lc "<rect") s0
  let (_, s2) ← dropWs1 s1
  let s3 ← seekY158 (s2.length + 1) s2
  let s4 ← seekFill (s3.length + 1) s3
  let s5 ← takeToGt s4
  pure (s0.length - s5.length, lc "<!-- 已移除黑色条带 -->")

/-- Leftmost occurrence of `name="` whose value parses (`name="([^"]+)"`),
with retry on later occurrences — `re.search` of an attribute. -/
def searchAttrVal (name : List Char) : Nat → List Char → Option (List Char)
  | 0, _ => none
  | _ + 1, [] => none
  | fuel + 1, c :: cs =>
    match parseAttr name (c :: cs) with
    | some (v, _) => some v
    | none => searchAttrVal name fuel cs

/-- A digit run and its value. -/
def takeDigits (s : List Char) : Option (Nat × List Char) :=
  let d := s.takeWhile (fun c => '0' ≤ c && c ≤ '9')
  if d = [] then none
  else some (d.foldl (fun n c => n * 10 + (c.toNat - 48)) 0, s.drop d.length)

/-- Python `float()` of a simple decimal attribute value (optional sign,
integer part, optional fraction, optional exponent), as an exact rational.
`none` models the `ValueError` that `float` would raise on non-numeric
text (never reached on numeric markup; the comparisons below involve
values exactly representable in binary floating point in all uses). -/
def pyFloat (s0 : List Char) : Option ℚ :=
  let s := pyStrip s0
  let (neg, s) :=
    match s with
    | '-' :: r => (true, r)
    | '+' :: r => (false, r)
    | _ => (false, s)
  let (ip, s) :=
    match takeDigits s with
    | some (n, r) => (some n, r)
    | none => (none, s)
  let (fp, fd, s) :=
    match s with
    | '.' :: r =>
      match takeDigits r with
      | some (n, r2) => (some n, r.length - r2.length, r2)
      | none => (some 0, 0, r)
    | _ => (none, 0, s)
  if ip = none ∧ fd = 0 then none
  else
    let mantissa : ℚ := (ip.getD 0 : ℚ) + (fp.getD 0 : ℚ) / ((10 : ℚ) ^ fd)
    let ex : Option (ℤ × List Char) :=
      match s with
      | 'e' :: r =>
        (match r with
         | '-' :: r2 => (takeDigits r2).map (fun p => (-(p.1 : ℤ), p.2))
         | '+' :: r2 => (takeDigits r2).map (fun p => ((p.1 : ℤ), p.2))
         | _ => (takeDigits r).map (fun p => ((p.1 : ℤ), p.2)))
      | 'E' :: r =>
        (match r with
         | '-' :: r2 => (takeDigits r2).map (fun p => (-(p.1 : ℤ), p.2))
         | '+' :: r2 => (takeDigits r2).map (fun p => ((p.1 : ℤ), p.2))
         | _ => (takeDigits r).map (fun p => ((p.1 : ℤ), p.2)))
      | _ => some ((0 : ℤ), s)
    match ex with
    | none => none
    | some (e, rest) =>
      if rest ≠ [] then none
      else some ((if neg then -mantissa else mantissa) * (10 : ℚ) ^ e)

/-- `remove_black_strip_special`: delete a black rectangle whose width
exceeds five times its height while the height is below 40. Modelling
note: on a black rectangle whose `width`/`height` text is non-numeric the
Python source raises an uncaught `ValueError` from `float()` (aborting the
whole run); this model leaves such a rectangle unchanged, and no theorem
below relies on that path. The comparisons use exact rationals; every
value compared by a theorem here is exactly representable in binary
floating point, so the outcome matches CPython. -/
def remove_black_strip_special (rectText : List Char) : List Char :=
  match searchAttrVal (lc "width") (rectText.length + 1) rectText,
    searchAttrVal (lc "height") (rectText.length + 1) rectText with
  | some wv, some hv =>
    match pyFloat wv, pyFloat hv with
    | some w, some h =>
      if w > 5 * h ∧ h < 40 then lc "<!-- 已移除宽扁黑色条带 -->" else rectText
    | _, _ => rectText
  | _, _ => rectText

/-- Matcher of `<rect\s+[^>]*?fill="(?:black|#000000|#000)"[^>]*?>` with
`remove_black_strip_special` as replacement function. -/
def blackRect2Matcher : Matcher := fun s0 => do
  let s1 ← dropLit (lc "<rect") s0
  let (_, s2) ← dropWs1 s1
  let s3 ← seekFill (s2.length + 1) s2
  let s4 ← takeToGt s3
  let n := s0.length - s4.length
  pure (n, remove_black_strip_special (s0.take n))

/-- Step 3 of `fix_svg_errors` (run only for figure 8 / figure 9): the
positional strip removal, then the proportion-based removal; returns the
new markup together with `fixed_black_rect_count`. -/
def fixSvgStep3 (s : List Char) : List Char × Nat :=
  let s1 := if msearch specialStripMatcher s then rsub specialStripMatcher s else s
  let s2 := rsub blackRect2Matcher s1
  (s2, countBlackRects s2)

/-! ## SVG repair steps 4–5: axis restoration and curated fallbacks -/

/-- `x1="[^"]+"\s+y1="[^"]+"\s+x2="[^"]+"[^>]*?>` — the tail of the axis
pattern after `x1="` has been located. -/
def axesTail (s : List Char) : Option Unit := do
  let (_, s1) ← takeAttrVal s
  let (_, s2) ← dropWs1 s1
  let s3 ← dropLit (lc "y1=\"") s2
  let (_, s4) ← takeAttrVal s3
  let (_, s5) ← dropWs1 s4
  let s6 ← dropLit (lc "x2=\"") s5
  let (_, s7) ← takeAttrVal s6
  let _ ← takeToGt s7
  pure ()

/-- `[^>]*?x1="…` with retry over later `x1="` occurrences, never crossing
`'>'`. -/
def seekAxesX1 : Nat → List Char → Bool
  | 0, _ => false
  | _ + 1, [] => false
  | fuel + 1, c :: cs =>
    (match dropLit (lc "x1=\"") (c :: cs) with
     | some rest => (axesTail rest).isSome
     | none => false)
    || (c ≠ '>' && seekAxesX1 fuel cs)

/-- `re.search(r'<line[^>]*?x1="[^"]+"\s+y1="[^"]+"\s+x2="[^"]+"[^>]*?>', …)`
— the axis-presence check. -/
def hasAxes (s : List Char) : Bool :=
  scanExists
    (fun t =>
      match dropLit (lc "<line") t with
      | some rest => seekAxesX1 (rest.length + 1) rest
      | none => false)
    (s.length + 1) s

/-- The default axis pair substituted for `</svg>` when the axes vanished
(identical text for figure 8 and figure 9). -/
def defaultAxes : List Char :=
  lc "<line x1=\"50\" y1=\"320\" x2=\"650\" y2=\"320\" stroke=\"rgba(0,0,0,0.8)\" stroke-width=\"2\"/>\n<line x1=\"50\" y1=\"50\" x2=\"50\" y2=\"320\" stroke=\"rgba(0,0,0,0.8)\" stroke-width=\"2\"/>\n</svg>"

/-- The curated replacement markup for figure 8 (exact text). -/
def fallbackSvg8 : List Char := lc
  ("<svg width=\"700\" height=\"400\" xmlns=\"http://www.w3.org/2000/svg\">\n" ++
   "    <rect x=\"0\" y=\"0\" width=\"700\" height=\"400\" fill=\"#f8f9fa\" rx=\"15\" ry=\"15\"/>\n" ++
   "    <text x=\"350\" y=\"30\" text-anchor=\"middle\" font-family=\"Arial\" font-size=\"20\" font-weight=\"bold\">Cp参数与球间距离的理论关系</text>\n" ++
   "    \n" ++
   "    <!-- 坐标轴 -->\n" ++
   "    <line x1=\"50\" y1=\"320\" x2=\"650\" y2=\"320\" stroke=\"rgba(0,0,0,0.8)\" stroke-width=\"2\"/>\n" ++
   "    <line x1=\"50\" y1=\"50\" x2=\"50\" y2=\"320\" stroke=\"rgba(0,0,0,0.8)\" stroke-width=\"2\"/>\n" ++
   "    \n" ++
   "    <!-- 坐标轴标签 -->\n" ++
   "    <text x=\"350\" y=\"350\" text-anchor=\"middle\" font-family=\"Arial\" font-size=\"16\">球间距离 (kd)</text>\n" ++
   "    <text x=\"30\" y=\"185\" text-anchor=\"middle\" font-family=\"Arial\" font-size=\"16\" transform=\"rotate(270, 30, 185)\">Cp参数</text>\n" ++
   "    \n" ++
   "    <!-- 坐标刻度 -->\n" ++
   "    <text x=\"50\" y=\"340\" text-anchor=\"middle\" font-family=\"Arial\" font-size=\"12\">0</text>\n" ++
   "    <text x=\"170\" y=\"340\" text-anchor=\"middle\" font-family=\"Arial\" font-size=\"12\">2</text>\n" ++
   "    <text x=\"290\" y=\"340\" text-anchor=\"middle\" font-family=\"Arial\" font-size=\"12\">4</text>\n" ++
   "    <text x=\"410\" y=\"340\" text-anchor=\"middle\" font-family=\"Arial\" font-size=\"12\">6</text>\n" ++
   "    <text x=\"530\" y=\"340\" text-anchor=\"middle\" font-family=\"Arial\" font-size=\"12\">8</text>\n" ++
   "    <text x=\"650\" y=\"340\" text-anchor=\"middle\" font-family=\"Arial\" font-size=\"12\">10</text>\n" ++
   "    \n" ++
   "    <!-- 蓝色波浪曲线 -->\n" ++
   "    <path d=\"M 50,250 C 80,240 110,250 140,240 C 170,225 200,245 230,235 C 260,220 290,245 320,230 C 350,220 380,240 410,230 C 440,220 470,240 500,230 C 530,225 560,240 590,230 C 620,225 650,235 680,225\" \n" ++
   "          fill=\"none\" stroke=\"blue\" stroke-width=\"2.5\"/>\n" ++
   "    \n" ++
   "    <!-- 红色虚线 -->\n" ++
   "    <line x1=\"50\" y1=\"260\" x2=\"650\" y2=\"220\" stroke=\"red\" stroke-width=\"2\" stroke-dasharray=\"5,5\"/>\n" ++
   "    \n" ++
   "    <!-- 图例 -->\n" ++
   "    <rect x=\"450\" y=\"80\" width=\"150\" height=\"80\" fill=\"white\" stroke=\"black\"/>\n" ++
   "    <line x1=\"460\" y1=\"100\" x2=\"500\" y2=\"100\" stroke=\"blue\" stroke-width=\"2.5\"/>\n" ++
   "    <line x1=\"460\" y1=\"130\" x2=\"500\" y2=\"130\" stroke=\"red\" stroke-width=\"2\" stroke-dasharray=\"5,5\"/>\n" ++
   "    <text x=\"510\" y=\"105\" font-family=\"Arial\" font-size=\"14\">理论值</text>\n" ++
   "    <text x=\"510\" y=\"135\" font-family=\"Arial\" font-size=\"14\">参考值</text>\n" ++
   "</svg>")

/-- The curated replacement markup for figure 9 (exact text). -/
def fallbackSvg9 : List Char := lc
  ("<svg width=\"700\" height=\"400\" xmlns=\"http://www.w3.org/2000/svg\">\n" ++
   "    <rect x=\"0\" y=\"0\" width=\"700\" height=\"400\" fill=\"#f8f9fa\" rx=\"15\" ry=\"15\"/>\n" ++
   "    <text x=\"350\" y=\"30\" text-anchor=\"middle\" font-family=\"Arial\" font-size=\"20\" font-weight=\"bold\">近场耦合区域Cp参数行为</text>\n" ++
   "    \n" ++
   "    <!-- 坐标轴 -->\n" ++
   "    <line x1=\"50\" y1=\"320\" x2=\"650\" y2=\"320\" stroke=\"rgba(0,0,0,0.8)\" stroke-width=\"2\"/>\n" ++
   "    <line x1=\"50\" y1=\"50\" x2=\"50\" y2=\"320\" stroke=\"rgba(0,0,0,0.8)\" stroke-width=\"2\"/>\n" ++
   "    \n" ++
   "    <!-- 坐标轴标签 -->\n" ++
   "    <text x=\"350\" y=\"350\" text-anchor=\"middle\" font-family=\"Arial\" font-size=\"16\">球间距离 (d/λ)</text>\n" ++
   "    <text x=\"30\" y=\"185\" text-anchor=\"middle\" font-family=\"Arial\" font-size=\"16\" transform=\"rotate(270, 30, 185)\">Cp参数</text>\n" ++
   "    \n" ++
   "    <!-- 坐标刻度 -->\n" ++
   "    <text x=\"50\" y=\"340\" text-anchor=\"middle\" font-family=\"Arial\" font-size=\"12\">0</text>\n" ++
   "    <text x=\"170\" y=\"340\" text-anchor=\"middle\" font-family=\"Arial\" font-size=\"12\">0.2</text>\n" ++
   "    <text x=\"290\" y=\"340\" text-anchor=\"middle\" font-family=\"Arial\" font-size=\"12\">0.4</text>\n" ++
   "    <text x=\"410\" y=\"340\" text-anchor=\"middle\" font-family=\"Arial\" font-size=\"12\">0.6</text>\n" ++
   "    <text x=\"530\" y=\"340\" text-anchor=\"middle\" font-family=\"Arial\" font-size=\"12\">1.0</text>\n" ++
   "    <text x=\"650\" y=\"340\" text-anchor=\"middle\" font-family=\"Arial\" font-size=\"12\">1.2</text>\n" ++
   "    \n" ++
   "    <!-- 单球Cp参数基准线 -->\n" ++
   "    <line x1=\"50\" y1=\"170\" x2=\"650\" y2=\"170\" stroke=\"#888888\" stroke-width=\"2\" stroke-dasharray=\"5,5\"/>\n" ++
   "    <text x=\"100\" y=\"165\" font-family=\"Arial\" font-size=\"12\">单球Cp值</text>\n" ++
   "    \n" ++
   "    <!-- Cp曲线 -->\n" ++
   "    <path d=\"M 50,270 C 100,250 150,210 200,170 C 250,130 300,110 340,120 C 400,140 460,160 530,170 C 580,180 620,172 650,170\" \n" ++
   "          fill=\"none\" stroke=\"#1976D2\" stroke-width=\"2.5\"/>\n" ++
   "    \n" ++
   "    <!-- 图例 -->\n" ++
   "    <rect x=\"450\" y=\"60\" width=\"180\" height=\"60\" fill=\"white\" stroke=\"black\"/>\n" ++
   "    <line x1=\"460\" y1=\"75\" x2=\"490\" y2=\"75\" stroke=\"#1976D2\" stroke-width=\"2.5\"/>\n" ++
   "    <line x1=\"460\" y1=\"105\" x2=\"490\" y2=\"105\" stroke=\"#888888\" stroke-width=\"2\" stroke-dasharray=\"5,5\"/>\n" ++
   "    <text x=\"500\" y=\"80\" font-family=\"Arial\" font-size=\"14\">双球系统</text>\n" ++
   "    <text x=\"500\" y=\"110\" font-family=\"Arial\" font-size=\"14\">单球参考值</text>\n" ++
   "    \n" ++
   "    <!-- 特征点标注 -->\n" ++
   "    <circle cx=\"80\" cy=\"270\" r=\"5\" fill=\"#D32F2F\"/>\n" ++
   "    <text x=\"80\" y=\"255\" text-anchor=\"middle\" font-family=\"Arial\" font-size=\"10\">接触点</text>\n" ++
   "    \n" ++
   "    <circle cx=\"340\" cy=\"120\" r=\"5\" fill=\"#D32F2F\"/>\n" ++
   "    <text x=\"340\" y=\"105\" text-anchor=\"middle\" font-family=\"Arial\" font-size=\"10\">极小值</text>\n" ++
   "</svg>")

/-- Steps 1–2 of `fix_svg_errors`: line-attribute fixes, then LaTeX
translation inside `<text>` elements and, for complex formulas, the math
style block insertion (the complex-formula flag is read after step 1). -/
def fixSvgThroughStep2 (svg0 : List Char) : List Char :=
  let s1 := fixSvgStep1 svg0
  let s2a := rsub textElMatcher s1
  if hasComplexFormula s1 then insertMathStyle s2a else s2a

/-- `fix_svg_errors`: the complete repair pipeline. Steps 1–2 are
`fixSvgThroughStep2`; step 3 (figure 8 / figure 9 only) removes black
strips; step 4 restores default axes when the axis check fails — but only
for the two caption-matched figures; step 5 discards everything in favour
of the curated markup when black rectangles remain (figure 8 / figure 9
only). -/
def fix_svg_errors (svg0 : List Char) : List Char :=
  let isF8 := hasSub fig8Caption svg0
  let isF9 := hasSub fig9Caption svg0
  let s2 := fixSvgThroughStep2 svg0
  let p3 := if isF8 || isF9 then some (fixSvgStep3 s2) else none
  let s3 := match p3 with | some t => t.1 | none => s2
  let s4 :=
    if hasAxes s3 then s3
    else if isF9 then pyReplace (lc "</svg>") defaultAxes s3
    else if isF8 then pyReplace (lc "</svg>") defaultAxes s3
    else s3
  match p3 with
  | some t =>
    if t.2 > 0 then (if isF8 then fallbackSvg8 else fallbackSvg9) else s4
  | none => s4

/-! ## Inline SVG extraction (`extract_inline_svg`) -/

/-- A document segment for `extract_inline_svg`: plain text (containing no
` ```­ ` fence and no `<svg`), a fenced ` ```svg ` block, or a bare inline
`<svg…</svg>` span (the two regex source forms). -/
inductive SvgSeg where
  | text (t : List Char)
  | fenced (interior : List Char)
  | bare (raw : List Char)
deriving DecidableEq

/-- The raw document text of one segment. -/
def renderSvgSeg : SvgSeg → List Char
  | .text t => t
  | .fenced i => lc "```svg" ++ i ++ lc "```"
  | .bare r => r

/-- `re.search(r'<title>(.*?)</title>', …)` at one position (non-DOTALL). -/
def titleAt (s : List Char) : Option (List Char) := do
  let s1 ← dropLit (lc "<title>") s
  let (b, _) ← lazyUntilNoNl (lc "</title>") (s1.length + 1) s1
  pure b

/-- First `<title>…</title>` content of the markup. -/
def searchTitle (s : List Char) : Option (List Char) :=
  scanFirst titleAt (s.length + 1) s

/-- Common tail of `svg_replacer`: repair the markup, allocate the next
`inline_svg_<n>` id, extract or default the title, store the artifact, emit
the placeholder chunk. -/
def svgStore (svgContent : List Char) (k : Nat) :
    List Char × Option (List Char × ChatArtifact) × Nat :=
  let fixed := fix_svg_errors svgContent
  let id := lc "inline_svg_" ++ natToChars k
  let k2 := k + 1
  let title :=
    match searchTitle fixed with
    | some t => t
    | none => lc "内嵌SVG图形 " ++ natToChars k2
  (phChunk id,
   some (id, { id := id, version := lc "1.0", type := svgMime,
               title := title, content := fixed }), k2)

/-- `svg_replacer` on a fenced ` ```svg ` block: the stripped content must
be a complete `<svg…</svg>` document, otherwise the block is left as plain
text. -/
def svgReplacerFenced (interior : List Char) (k : Nat) :
    List Char × Option (List Char × ChatArtifact) × Nat :=
  let code := pyStrip interior
  if (lc "<svg").isPrefixOf code && (lc "</svg>").isSuffixOf code then
    svgStore code k
  else (renderSvgSeg (.fenced interior), none, k)

/-- `svg_replacer` on a bare inline `<svg…</svg>` span. -/
def svgReplacerBare (raw : List Char) (k : Nat) :
    List Char × Option (List Char × ChatArtifact) × Nat :=
  if raw = [] || !(lc "<svg").isPrefixOf raw then (raw, none, k)
  else svgStore raw k

/-- First `re.sub` pass of `extract_inline_svg`: the fenced blocks, in
document order (the shared `start_id` counter advances over this pass
before any bare block is numbered). -/
def svgPassFenced : List SvgSeg → List (List Char × ChatArtifact) → Nat →
    List SvgSeg × List (List Char × ChatArtifact) × Nat
  | [], arts, k => ([], arts, k)
  | .fenced i :: rest, arts, k =>
    let r := svgReplacerFenced i k
    let arts2 :=
      match r.2.1 with
      | some p => dictInsert arts p.1 p.2
      | none => arts
    let (ss, a3, k3) := svgPassFenced rest arts2 r.2.2
    (.text r.1 :: ss, a3, k3)
  | s :: rest, arts, k =>
    let (ss, a2, k2) := svgPassFenced rest arts k
    (s :: ss, a2, k2)

/-- Second `re.sub` pass of `extract_inline_svg`: the bare spans. -/
def svgPassBare : List SvgSeg → List (List Char × ChatArtifact) → Nat →
    List Char × List (List Char × ChatArtifact) × Nat
  | [], arts, k => ([], arts, k)
  | .bare r :: rest, arts, k =>
    let rr := svgReplacerBare r k
    let arts2 :=
      match rr.2.1 with
      | some p => dictInsert arts p.1 p.2
      | none => arts
    let (s, a3, k3) := svgPassBare rest arts2 rr.2.2
    (rr.1 ++ s, a3, k3)
  | seg :: rest, arts, k =>
    let (s, a2, k2) := svgPassBare rest arts k
    (renderSvgSeg seg ++ s, a2, k2)

/-- `extract_inline_svg`: fenced blocks first, then bare spans, sharing one
artifact dictionary and one id counter. -/
def extract_inline_svg (d : List SvgSeg) (k : Nat) :
    List Char × List (List Char × ChatArtifact) × Nat :=
  let (d1, a1, k1) := svgPassFenced d [] k
  svgPassBare d1 a1 k1

/-! ## Inline Mermaid extraction (`extract_inline_mermaid`) -/

/-- A document segment for `extract_inline_mermaid`: plain text or one
fenced ` ```mermaid ` block with its raw interior (the part between
` ```mermaid ` and the closing fence; neither may contain a fence). -/
inductive MermaidSeg where
  | text (t : List Char)
  | block (interior : List Char)
deriving DecidableEq

/-- The raw document text of one segment. -/
def renderMermaidSeg : MermaidSeg → List Char
  | .text t => t
  | .block i => lc "```mermaid" ++ i ++ lc "```"

/-- Title inference from the leading keyword of the mermaid content. -/
def mermaidTitle (content : List Char) : List Char :=
  if (lc "flowchart").isPrefixOf content || (lc "graph").isPrefixOf content then
    lc "流程图"
  else if (lc "sequenceDiagram").isPrefixOf content then lc "时序图"
  else if (lc "classDiagram").isPrefixOf content then lc "类图"
  else if (lc "stateDiagram").isPrefixOf content then lc "状态图"
  else if (lc "erDiagram").isPrefixOf content then lc "ER图"
  else if (lc "gantt").isPrefixOf content then lc "甘特图"
  else if (lc "pie").isPrefixOf content then lc "饼图"
  else lc "流程图"

/-- `mermaid_replacer`: `mermaid_content = match.group(1).strip()` (group 1
is the interior with its maximal leading-whitespace run removed by the
greedy `\s*`, so stripping it equals stripping the interior); an empty
content leaves the whole block untouched and stores nothing. -/
def mermaidReplacer (interior : List Char) (k : Nat) :
    List Char × Option (List Char × ChatArtifact) × Nat :=
  let content := pyStrip interior
  if content = [] then (renderMermaidSeg (.block interior), none, k)
  else
    let id := lc "inline_mermaid_" ++ natToChars k
    (phChunk id,
     some (id, { id := id, version := lc "1.0", type := mermaidMime,
                 title := mermaidTitle content, content := content }), k + 1)

/-- `extract_inline_mermaid`: one `re.sub` pass over the document. -/
def extract_inline_mermaid : List MermaidSeg → List (List Char × ChatArtifact) → Nat →
    List Char × List (List Char × ChatArtifact) × Nat
  | [], arts, k => ([], arts, k)
  | .text t :: rest, arts, k =>
    let (s, a2, k2) := extract_inline_mermaid rest arts k
    (t ++ s, a2, k2)
  | .block i :: rest, arts, k =>
    let r := mermaidReplacer i k
    let arts2 :=
      match r.2.1 with
      | some p => dictInsert arts p.1 p.2
      | none => arts
    let (s, a3, k3) := extract_inline_mermaid rest arts2 r.2.2
    (r.1 ++ s, a3, k3)

/-! ## The inline passes on raw text, and `extract_artifacts` -/

/-- One position of a stateful `re.sub` pass: given the text from this
position and the current `start_id` counter, a match yields its length, the
replacement text, the stored artifact binding (if any) and the updated
counter. -/
def InlineMatcher : Type :=
  List Char → Nat → Option (Nat × List Char × Option (List Char × ChatArtifact) × Nat)

/-- Fuel-driven stateful `re.sub`: at each position the matcher is tried; a
match emits its replacement, records its artifact and resumes after the
match, otherwise the character is kept and the scan advances by one. -/
def isubF (m : InlineMatcher) :
    Nat → List Char → List (List Char × ChatArtifact) → Nat →
    List Char × List (List Char × ChatArtifact) × Nat
  | 0, s, arts, k => (s, arts, k)
  | _ + 1, [], arts, k => ([], arts, k)
  | fuel + 1, c :: cs, arts, k =>
    match m (c :: cs) k with
    | some (n, repl, stored, k2) =>
      let arts2 :=
        match stored with
        | some p => dictInsert arts p.1 p.2
        | none => arts
      let r := isubF m fuel ((c :: cs).drop n) arts2 k2
      (repl ++ r.1, r.2)
    | none =>
      let r := isubF m fuel cs arts k
      (c :: r.1, r.2)

/-- Stateful `re.sub` over a whole text (every match of the patterns below
consumes at least the opening literal, so `length + 1` fuel runs the scan
to the end). -/
def isub (m : InlineMatcher) (s : List Char)
    (arts : List (List Char × ChatArtifact)) (k : Nat) :
    List Char × List (List Char × ChatArtifact) × Nat :=
  isubF m (s.length + 1) s arts k

/-- One position of the codeblock pattern of `extract_inline_svg`,
`re.sub(r'```svg\s*([\s\S]*?)```', …)`: after the opening literal the lazy
group runs to the first closing fence (the greedy `\s*` can never cross a
backtick, so group 1 is the interior minus its leading whitespace —
`svgReplacerFenced` strips it, which makes passing the raw interior
equivalent — and group 0 is `` ```svg`` ++ interior ++ ``` `` ``). -/
def fencedSvgMatcher : InlineMatcher := fun s k =>
  if (lc "```svg").isPrefixOf s then
    match findSub (lc "```") (s.drop 6) with
    | none => none
    | some (before, _) =>
      let r := svgReplacerFenced before k
      some (6 + before.length + 3, r.1, r.2.1, r.2.2)
  else none

/-- One position of the bare pattern of `extract_inline_svg`,
`re.sub(r'(<svg[\s\S]*?</svg>)', …)`: the lazy body runs to the first
closing tag; group 1 is the whole match. -/
def bareSvgMatcher : InlineMatcher := fun s k =>
  if (lc "<svg").isPrefixOf s then
    match findSub (lc "</svg>") (s.drop 4) with
    | none => none
    | some (before, _) =>
      let r := svgReplacerBare (lc "<svg" ++ before ++ lc "</svg>") k
      some (4 + before.length + 6, r.1, r.2.1, r.2.2)
  else none

/-- One position of the pattern of `extract_inline_mermaid`,
`re.sub(r'```mermaid\s*([\s\S]*?)```', …)` (same greedy-`\s*` remark as for
the codeblock SVG pattern; `mermaidReplacer` strips the interior). -/
def mermaidMatcher : InlineMatcher := fun s k =>
  if (lc "```mermaid").isPrefixOf s then
    match findSub (lc "```") (s.drop 10) with
    | none => none
    | some (before, _) =>
      let r := mermaidReplacer before k
      some (10 + before.length + 3, r.1, r.2.1, r.2.2)
  else none

/-- `extract_inline_svg` on raw text: the codeblock pass, then the bare
inline pass, sharing one local artifacts dictionary and one `start_id`
counter (`extract_inline_svg` above is the same computation on a
pre-segmented document, used by the C5 analysis). -/
def extract_inline_svg_text (s : List Char) (k : Nat) :
    List Char × List (List Char × ChatArtifact) × Nat :=
  let r := isub fencedSvgMatcher s [] k
  isub bareSvgMatcher r.1 r.2.1 r.2.2

/-- `extract_inline_mermaid` on raw text: one `re.sub` pass
(`extract_inline_mermaid` above is the same computation on a pre-segmented
document, used by the C10 analysis). -/
def extract_inline_mermaid_text (s : List Char) (k : Nat) :
    List Char × List (List Char × ChatArtifact) × Nat :=
  isub mermaidMatcher s [] k

/-- `extract_artifacts`: the tagged-block pass, then `extract_inline_svg`
and `extract_inline_mermaid` on the sanitized text (each pass starts its id
counter at the current artifact count and its local dictionary is merged
with `artifacts.update(…)`), then `preprocess_latex_math`. -/
def extract_artifacts (d : TaggedDoc) :
    List Char × List (List Char × ChatArtifact) :=
  let a1 := taggedArtifacts d.1
  let r2 := extract_inline_svg_text (taggedSanitized d.1 d.2) a1.length
  let a2 := dictUpdate a1 r2.2.1
  let r3 := extract_inline_mermaid_text r2.1 a2.length
  (preprocess_latex_math r3.1, dictUpdate a2 r3.2.1)

/-! ## Mermaid flowchart parsing (inside `process_mermaid_artifact`) -/

/-- Graphviz node attributes assigned per shape. -/
structure NodeStyle where
  shape : List Char
  style : List Char
  fillcolor : List Char
deriving DecidableEq

/-- `[A-Za-z0-9_]`. -/
def isIdChar (c : Char) : Bool := isAsciiAlnum c || c = '_'

/-- Style of a rectangle node `A[label]`. -/
def rectStyle : NodeStyle := ⟨lc "box", lc "filled,rounded", lc "lightblue"⟩

/-- Style of a rounded-rectangle node `A([label])`. -/
def roundedStyle : NodeStyle := ⟨lc "box", lc "filled,rounded", lc "lightgreen"⟩

/-- Style of a circle node `A((label))`. -/
def circleStyle : NodeStyle := ⟨lc "circle", lc "filled", lc "lightblue"⟩

/-- Style of a rhombus node `A{label}`. -/
def rhombusStyle : NodeStyle := ⟨lc "diamond", lc "filled", lc "lightyellow"⟩

/-- Style of a hexagon node `A{{label}}`. -/
def hexagonStyle : NodeStyle := ⟨lc "hexagon", lc "filled", lc "lightpink"⟩

/-- Default style of a bare-identifier / synthesized plain node. -/
def plainStyle : NodeStyle := ⟨lc "plaintext", [], lc "white"⟩

/-- The directed-edge token (note the mandatory surrounding spaces). -/
def arrowSep : List Char := lc " --> "

/-- `'` and `"` — the characters removed by `label.strip('"\'')`. -/
def isQuoteChar (c : Char) : Bool := c = '"' || c = sq

/-- `label.strip('"\'')`. -/
def stripQuotes (s : List Char) : List Char :=
  ((s.dropWhile isQuoteChar).reverse.dropWhile isQuoteChar).reverse

/-- `^\s*([A-Za-z0-9_]+)` — leading identifier with optional leading
whitespace; returns the id and the rest. -/
def nodeIdAt (s : List Char) : Option (List Char × List Char) :=
  let s1 := s.dropWhile isPyWs
  let i := s1.takeWhile isIdChar
  if i = [] then none else some (i, s1.drop i.length)

/-- `\s*([^X]+)\s*X` for a closing character `X`: the greedy group swallows
everything up to the closer (backtracking the leading `\s*` by one character
when the interior is pure whitespace). Returns the group and the rest after
the closer. -/
def shapeInterior (close : Char) (s : List Char) : Option (List Char × List Char) :=
  let w := s.takeWhile isPyWs
  let s1 := s.drop w.length
  let v := s1.takeWhile (fun c => c ≠ close)
  if v ≠ [] then
    match s1.drop v.length with
    | _ :: rest => some (v, rest)
    | [] => none
  else
    match s1, w.getLast? with
    | _ :: rest, some lw => some ([lw], rest)
    | _, _ => none

/-- `rect_node_regex = r'^\s*([A-Za-z0-9_]+)\s*\[\s*([^\]]+)\s*\]'`. -/
def rectMatch (s : List Char) : Option (List Char × List Char) := do
  let (i, s1) ← nodeIdAt s
  let s2 ← dropLit ['['] (s1.dropWhile isPyWs)
  let (v, _) ← shapeInterior ']' s2
  pure (i, v)

/-- `rounded_rect_regex = r'^\s*([A-Za-z0-9_]+)\s*\(\s*\[\s*([^\]]+)\s*\]\s*\)'`. -/
def roundedMatch (s : List Char) : Option (List Char × List Char) := do
  let (i, s1) ← nodeIdAt s
  let s2 ← dropLit ['('] (s1.dropWhile isPyWs)
  let s3 ← dropLit ['['] (s2.dropWhile isPyWs)
  let (v, s4) ← shapeInterior ']' s3
  let _ ← dropLit [')'] (s4.dropWhile isPyWs)
  pure (i, v)

/-- `circle_node_regex = r'^\s*([A-Za-z0-9_]+)\s*\(\(\s*([^\)]+)\s*\)\)'`. -/
def circleMatch (s : List Char) : Option (List Char × List Char) := do
  let (i, s1) ← nodeIdAt s
  let s2 ← dropLit (lc "((") (s1.dropWhile isPyWs)
  let (v, s3) ← shapeInterior ')' s2
  let _ ← dropLit [')'] s3
  pure (i, v)

/-- `rhombus_node_regex = r'^\s*([A-Za-z0-9_]+)\s*\{\s*([^\}]+)\s*\}'`. -/
def rhombusMatch (s : List Char) : Option (List Char × List Char) := do
  let (i, s1) ← nodeIdAt s
  let s2 ← dropLit [obr] (s1.dropWhile isPyWs)
  let (v, _) ← shapeInterior cbr s2
  pure (i, v)

/-- `hexagon_node_regex = r'^\s*([A-Za-z0-9_]+)\s*\{\{\s*([^\}]+)\s*\}\}'`. -/
def hexagonMatch (s : List Char) : Option (List Char × List Char) := do
  let (i, s1) ← nodeIdAt s
  let s2 ← dropLit [obr, obr] (s1.dropWhile isPyWs)
  let (v, s3) ← shapeInterior cbr s2
  let _ ← dropLit [cbr] s3
  pure (i, v)

/-- Label cleanup shared by the rectangle patterns: strip quotes, turn
`<br>` into a line break. -/
def cleanRectLabel (v : List Char) : List Char :=
  pyReplace (lc "<br>") (lc "\n") (stripQuotes v)

/-- Node-pass state: the `nodes` and `node_styles` dictionaries. -/
def NodeState : Type :=
  List (List Char × List Char) × List (List Char × NodeStyle)

/-- One line of the node pass: skip blank / edge / style lines; try the six
shape patterns in fixed priority order, first match wins. -/
def nodePassLine (nm : NodeState) (line0 : List Char) : NodeState :=
  let line := pyStrip line0
  if line = [] || hasSub arrowSep line || hasSub (lc "style ") line then nm
  else
    match rectMatch line with
    | some (i, v) =>
      (dictInsert nm.1 i (cleanRectLabel v), dictInsert nm.2 i rectStyle)
    | none =>
    match roundedMatch line with
    | some (i, v) =>
      (dictInsert nm.1 i (cleanRectLabel v), dictInsert nm.2 i roundedStyle)
    | none =>
    match circleMatch line with
    | some (i, v) =>
      (dictInsert nm.1 i (stripQuotes v), dictInsert nm.2 i circleStyle)
    | none =>
    match rhombusMatch line with
    | some (i, v) =>
      (dictInsert nm.1 i (stripQuotes v), dictInsert nm.2 i rhombusStyle)
    | none =>
    match hexagonMatch line with
    | some (i, v) =>
      (dictInsert nm.1 i (stripQuotes v), dictInsert nm.2 i hexagonStyle)
    | none =>
    match nodeIdAt line with
    | some (i, _) =>
      if (dictLookup nm.1 i).isSome then nm
      else (dictInsert nm.1 i i, dictInsert nm.2 i plainStyle)
    | none => nm

/-- `re.search(r'^([A-Za-z0-9_]+)', s)` — no whitespace skip (the endpoint
text is already stripped). -/
def leadingId (s : List Char) : Option (List Char) :=
  let i := s.takeWhile isIdChar
  if i = [] then none else some i

/-- `re.search(r'\[([^\]]+)\]', s)` at one position. -/
def bracketAt (s : List Char) : Option (List Char) := do
  let s1 ← dropLit ['['] s
  let v := s1.takeWhile (fun c => c ≠ ']')
  if v = [] then none
  else
    match s1.drop v.length with
    | _ :: _ => some v
    | [] => none

/-- Leftmost `[…]` bracketed content of the endpoint text. -/
def searchBracket (s : List Char) : Option (List Char) :=
  scanFirst bracketAt (s.length + 1) s

/-- Synthesize one endpoint: an id not yet in `nodes` is added with the
bracketed content (rectangle / light blue) or with itself as a plain
node. -/
def synthPart (nm : NodeState) (part : List Char) : NodeState :=
  let p := pyStrip part
  match leadingId p with
  | none => nm
  | some i =>
    if (dictLookup nm.1 i).isSome then nm
    else
      match searchBracket p with
      | some v => (dictInsert nm.1 i (stripQuotes v), dictInsert nm.2 i rectStyle)
      | none => (dictInsert nm.1 i i, dictInsert nm.2 i plainStyle)

/-- One line of the endpoint-synthesis pass (source endpoint first, then
target). -/
def synthLine (nm : NodeState) (line : List Char) : NodeState :=
  if hasSub arrowSep line then
    let parts := splitOnSub arrowSep line
    let nm1 := synthPart nm (parts.headD [])
    match parts with
    | _ :: p1 :: _ => synthPart nm1 p1
    | _ => nm1
  else nm

/-- One edge of the parsed graph. -/
structure MermaidEdge where
  source : List Char
  target : List Char
  label : Option (List Char)
deriving DecidableEq

/-- `re.search(r'\|([^|]+)\|', line)` at one position. -/
def pipeAt (s : List Char) : Option (List Char) := do
  let s1 ← dropLit ['|'] s
  let v := s1.takeWhile (fun c => c ≠ '|')
  if v = [] then none
  else
    match s1.drop v.length with
    | _ :: _ => some v
    | [] => none

/-- Leftmost `|…|` edge label of the line. -/
def searchPipe (s : List Char) : Option (List Char) :=
  scanFirst pipeAt (s.length + 1) s

/-- One line of the edge pass. -/
def edgeLine (es : List MermaidEdge) (line0 : List Char) : List MermaidEdge :=
  let line := pyStrip line0
  if hasSub arrowSep line then
    let parts := splitOnSub arrowSep line
    let source := pyStrip (parts.headD [])
    let target := pyStrip (parts.getD 1 [])
    match leadingId source with
    | none => es
    | some si =>
      match leadingId target with
      | none => es
      | some ti => es ++ [⟨si, ti, searchPipe line⟩]
  else es

/-- `[0-9a-fA-F]`. -/
def isHexDigitCh (c : Char) : Bool :=
  ('0' ≤ c && c ≤ '9') || ('a' ≤ c && c ≤ 'f') || ('A' ≤ c && c ≤ 'F')

/-- `re.search(r'fill:(#[0-9a-fA-F]+)', s)` at one position. -/
def fillHexAt (s : List Char) : Option (List Char) := do
  let s1 ← dropLit (lc "fill:#") s
  let h := s1.takeWhile isHexDigitCh
  if h = [] then none else pure ('#' :: h)

/-- Leftmost `fill:#…` colour of a style directive. -/
def searchFillHex (s : List Char) : Option (List Char) :=
  scanFirst fillHexAt (s.length + 1) s

/-- One line of the style-override pass. -/
def styleLine (nm : NodeState) (line0 : List Char) : NodeState :=
  let line := pyStrip line0
  if (lc "style ").isPrefixOf line then
    match pySplitSpace2 line with
    | _ :: nodeId :: styleStr :: _ =>
      if (dictLookup nm.1 nodeId).isSome then
        let shape :=
          match dictLookup nm.2 nodeId with
          | some st => st.shape
          | none => lc "box"
        let fillcolor :=
          if hasSub (lc "fill:") styleStr then
            match searchFillHex styleStr with
            | some c => c
            | none => lc "lightblue"
          else lc "lightblue"
        (nm.1, dictInsert nm.2 nodeId ⟨shape, lc "filled,rounded", fillcolor⟩)
      else nm
    | _ => nm
  else nm

/-- The parsed flowchart. -/
structure MermaidGraph where
  direction : List Char
  nodes : List (List Char × List Char)
  styles : List (List Char × NodeStyle)
  edges : List MermaidEdge
deriving DecidableEq

/-- Direction read from the declaration line. -/
def mermaidDirection (firstLine : List Char) : List Char :=
  if hasSub (lc "LR") firstLine then lc "LR"
  else if hasSub (lc "RL") firstLine then lc "RL"
  else if hasSub (lc "BT") firstLine then lc "BT"
  else if hasSub (lc "TD") firstLine then lc "TB"
  else lc "TB"

/-- The node pass over the body lines. -/
def nodePass (ls : List (List Char)) : NodeState :=
  ls.foldl nodePassLine ([], [])

/-- The endpoint-synthesis pass over the body lines. -/
def synthesisPass (ls : List (List Char)) (nm : NodeState) : NodeState :=
  ls.foldl synthLine nm

/-- The edge pass over the body lines. -/
def edgePass (ls : List (List Char)) : List MermaidEdge :=
  ls.foldl edgeLine []

/-- The style-override pass over the body lines. -/
def stylePass (ls : List (List Char)) (nm : NodeState) : NodeState :=
  ls.foldl styleLine nm

/-- The `graph ` → `flowchart ` prefix rewrite applied before parsing. -/
def mermaidNormalize (content0 : List Char) : List Char :=
  if (lc "graph ").isPrefixOf content0 then lc "flowchart " ++ content0.drop 6
  else content0

/-- The body lines of the diagram (`lines[1:]`, after stripping and
splitting the normalized content). -/
def mermaidBodyLines (content0 : List Char) : List (List Char) :=
  (splitNewline (pyStrip (mermaidNormalize content0))).tail

/-- The flowchart parsing performed inside `process_mermaid_artifact`
(after the `graph ` → `flowchart ` prefix rewrite): node pass, endpoint
synthesis, edge pass, style overrides. -/
def process_mermaid_parse (content0 : List Char) : MermaidGraph :=
  let ls := splitNewline (pyStrip (mermaidNormalize content0))
  let body := mermaidBodyLines content0
  let nm1 := nodePass body
  let nm2 := synthesisPass body nm1
  let es := edgePass body
  let nm3 := stylePass body nm2
  { direction := mermaidDirection (pyStrip (ls.headD [])),
    nodes := nm3.1, styles := nm3.2, edges := es }

/-- The endpoint texts visited by the synthesis pass, in visiting order
(per edge line: `parts[0]`, then `parts[1]`). -/
def synthCandidates (ls : List (List Char)) : List (List Char) :=
  ls.foldr
    (fun line acc =>
      if hasSub arrowSep line then
        let parts := splitOnSub arrowSep line
        parts.headD [] ::
          ((match parts with
            | _ :: p1 :: _ => [p1]
            | _ => []) ++ acc)
      else acc) []

/-- The first endpoint text whose leading identifier is `x` — the
occurrence that synthesizes the node `x` (when `x` was never declared). -/
def firstSynthOcc (x : List Char) (ls : List (List Char)) : Option (List Char) :=
  (synthCandidates ls).find? (fun p => decide (leadingId (pyStrip p) = some x))

/-! # Helper lemmas -/

theorem findSub_spec (sep : List Char) :
    ∀ s b a, findSub sep s = some (b, a) → s = b ++ (sep ++ a) := by
  intro s
  induction s with
  | nil =>
    intro b a h
    unfold findSub at h
    split at h
    · rename_i hp
      have hsep : sep = [] := by
        simpa using List.prefix_nil.mp (List.isPrefixOf_iff_prefix.mp hp)
      cases h
      simp [hsep]
    · exact absurd h (by simp)
  | cons c cs ih =>
    intro b a h
    unfold findSub at h
    split at h
    · rename_i hp
      obtain ⟨t, ht⟩ := List.isPrefixOf_iff_prefix.mp hp
      cases h
      rw [← ht, List.drop_left]
      simp
    · revert h
      cases hfs : findSub sep cs with
      | none => intro h; exact absurd h (by simp)
      | some p =>
        intro h
        cases h
        have := ih p.1 p.2 hfs
        simp [this]

theorem rsubF_eq_self (m : Matcher)
    (h : ∀ s n r, m s = some (n, r) → r = s.take n ∧ 1 ≤ n) :
    ∀ fuel s, rsubF m fuel s = s := by
  intro fuel
  induction fuel with
  | zero => intro s; rfl
  | succ fuel ih =>
    intro s
    cases s with
    | nil => rfl
    | cons c cs =>
      unfold rsubF
      cases hm : m (c :: cs) with
      | none => simp [ih cs]
      | some p =>
        obtain ⟨pn, pr⟩ := p
        obtain ⟨hr, hn⟩ := h _ pn pr hm
        simp only [hr, ih]
        have : List.drop (pn - 1) cs = List.drop pn (c :: cs) := by
          cases pn with
          | zero => omega
          | succ k => simp
        rw [this, List.take_append_drop]

theorem rsub_eq_self (m : Matcher)
    (h : ∀ s n r, m s = some (n, r) → r = s.take n ∧ 1 ≤ n) (s : List Char) :
    rsub m s = s :=
  rsubF_eq_self m h _ s

theorem inlineMathMatcher_self (s : List Char) (n : Nat) (r : List Char)
    (h : inlineMathMatcher s = some (n, r)) : r = s.take n ∧ 1 ≤ n := by
  unfold inlineMathMatcher at h
  split at h
  · rename_i r1 rest
    split at h
    · exact absurd h (by simp)
    · revert h
      cases hfs : findSub ['$'] (r1 :: rest) with
      | none => intro h; exact absurd h (by simp)
      | some p =>
        obtain ⟨b, a⟩ := p
        intro h
        rw [Option.some.injEq, Prod.mk.injEq] at h
        obtain ⟨hn, hr⟩ := h
        subst hn hr
        have hspec := findSub_spec ['$'] _ _ _ hfs
        refine ⟨?_, by omega⟩
        rw [show ('$' :: (r1 :: rest) : List Char)
              = ('$' :: (b ++ ['$'])) ++ a by rw [hspec]; simp]
        rw [List.take_left' (by simp)]
  · exact absurd h (by simp)

theorem displayMathMatcher_self (s : List Char) (n : Nat) (r : List Char)
    (h : displayMathMatcher s = some (n, r)) : r = s.take n ∧ 1 ≤ n := by
  unfold displayMathMatcher at h
  split at h
  · rename_i c rest
    revert h
    cases hfs : findSub (lc "$$") rest with
    | none => intro h; exact absurd h (by simp)
    | some p =>
      obtain ⟨b, a⟩ := p
      intro h
      rw [Option.some.injEq, Prod.mk.injEq] at h
      obtain ⟨hn, hr⟩ := h
      subst hn hr
      have hspec := findSub_spec (lc "$$") _ _ _ hfs
      refine ⟨?_, by omega⟩
      rw [show ('$' :: '$' :: c :: rest : List Char)
            = (lc "$$" ++ (c :: b) ++ lc "$$") ++ a by rw [hspec]; simp [lc]]
      rw [List.take_left' (by simp [lc])]
  · exact absurd h (by simp)

/-- `preprocess_latex_math` replaces every match by itself: it is the
identity. -/
theorem preprocess_latex_math_id (s : List Char) :
    preprocess_latex_math s = s := by
  unfold preprocess_latex_math
  rw [rsub_eq_self inlineMathMatcher inlineMathMatcher_self,
    rsub_eq_self displayMathMatcher displayMathMatcher_self]

theorem splitNewline_ne_nil (s : List Char) : splitNewline s ≠ [] := by
  cases s with
  | nil => simp [splitNewline]
  | cons c cs =>
    simp only [splitNewline]
    split
    · simp
    · split <;> simp

theorem splitNewline_nl_cons (s : List Char) :
    splitNewline ('\n' :: s) = [] :: splitNewline s := by
  simp [splitNewline]

theorem splitNewline_append_nl (t s : List Char) :
    splitNewline (t ++ '\n' :: s) = splitNewline t ++ splitNewline s := by
  induction t with
  | nil => simp [splitNewline]
  | cons c t' ih =>
    by_cases hc : c = '\n'
    · subst hc
      rw [List.cons_append, splitNewline_nl_cons, splitNewline_nl_cons,
        List.cons_append, ih]
    · rw [List.cons_append]
      simp only [splitNewline, if_neg hc, ih]
      cases h : splitNewline t' with
      | nil => exact absurd h (splitNewline_ne_nil t')
      | cons l ls => simp

theorem splitNewline_no_nl (l : List Char) (h : '\n' ∉ l) :
    splitNewline l = [l] := by
  induction l with
  | nil => rfl
  | cons c cs ih =>
    have hc : c ≠ '\n' := fun e => h (e ▸ List.mem_cons_self c cs)
    have hcs : '\n' ∉ cs := fun m => h (List.mem_cons_of_mem _ m)
    simp only [splitNewline, if_neg hc, ih hcs]

theorem hasSub_eq_true_iff (pat s : List Char) :
    hasSub pat s = true ↔ pat <:+: s := by
  induction s with
  | nil =>
    simp [hasSub, List.isPrefixOf_iff_prefix, List.prefix_nil, List.infix_nil]
  | cons c cs ih =>
    simp only [hasSub, Bool.or_eq_true, List.isPrefixOf_iff_prefix, ih]
    constructor
    · rintro (h | h)
      · exact h.isInfix
      · exact List.infix_cons h
    · intro h
      exact List.infix_cons_iff.mp h

theorem mem_splitNewline_seg (s : List Char) :
    ((splitNewline s).headD [] <+: s) ∧ ∀ l ∈ splitNewline s, l <:+: s := by
  induction s with
  | nil =>
    constructor
    · simp [splitNewline]
    · intro l hl
      simp [splitNewline] at hl
      simp [hl]
  | cons c cs ih =>
    by_cases hc : c = '\n'
    · subst hc
      rw [splitNewline_nl_cons]
      refine ⟨by simp, ?_⟩
      intro l hl
      rcases List.mem_cons.mp hl with h | h
      · simp [h]
      · exact List.infix_cons (ih.2 l h)
    · simp only [splitNewline, if_neg hc]
      cases h : splitNewline cs with
      | nil => exact absurd h (splitNewline_ne_nil cs)
      | cons l0 ls =>
        have hhead : l0 <+: cs := by
          have := ih.1
          rw [h] at this
          simpa using this
        constructor
        · simp only [List.headD_cons]
          exact (show c :: l0 <+: c :: cs from List.cons_prefix_cons.mpr ⟨rfl, hhead⟩)
        · intro l hl
          rcases List.mem_cons.mp hl with hEq | hMem
          · subst hEq
            exact (show c :: l0 <+: c :: cs from
              List.cons_prefix_cons.mpr ⟨rfl, hhead⟩).isInfix
          · have : l ∈ splitNewline cs := by rw [h]; exact List.mem_cons_of_mem _ hMem
            exact List.infix_cons (ih.2 l this)

theorem pyStrip_seg (l : List Char) : pyStrip l <:+: l := by
  unfold pyStrip
  have h1 : l.dropWhile isPyWs <:+ l := List.dropWhile_suffix isPyWs
  have h2 : (l.dropWhile isPyWs).reverse.dropWhile isPyWs <:+
      (l.dropWhile isPyWs).reverse := List.dropWhile_suffix isPyWs
  have h3 : ((l.dropWhile isPyWs).reverse.dropWhile isPyWs).reverse <+:
      l.dropWhile isPyWs := by
    rw [← List.reverse_suffix] at *
    simpa using h2
  exact h3.isInfix.trans h1.isInfix

theorem not_placeholder_of_no_sub (t l : List Char)
    (ht : hasSub (lc "[artifact:") t = false) (hl : l <:+: t) :
    isPlaceholderLine (pyStrip l) = false := by
  by_contra hcon
  have h1 : isPlaceholderLine (pyStrip l) = true := by
    cases hx : isPlaceholderLine (pyStrip l)
    · exact absurd hx hcon
    · rfl
  have h2 : (lc "[artifact:").isPrefixOf (pyStrip l) = true := by
    unfold isPlaceholderLine at h1
    exact (Bool.and_eq_true _ _ |>.mp h1).1
  have h3 : lc "[artifact:" <:+: t :=
    ((List.isPrefixOf_iff_prefix.mp h2).isInfix.trans (pyStrip_seg l)).trans hl
  rw [← hasSub_eq_true_iff, ht] at h3
  exact Bool.false_ne_true h3

theorem pyStrip_phLine (id : List Char) : pyStrip (phLine id) = phLine id := by
  have h1 : (phLine id).dropWhile isPyWs = phLine id := by
    unfold phLine
    rw [show (lc "[artifact:" ++ id ++ lc "]" : List Char)
          = '[' :: (lc "artifact:" ++ id ++ lc "]") by simp [lc]]
    simp [List.dropWhile_cons, show isPyWs '[' = false from rfl]
  have h2 : (phLine id).reverse.dropWhile isPyWs = (phLine id).reverse := by
    unfold phLine
    rw [show (lc "[artifact:" ++ id ++ lc "]" : List Char).reverse
          = ']' :: (lc "[artifact:" ++ id).reverse by simp [lc]]
    simp [List.dropWhile_cons, show isPyWs ']' = false from rfl]
  unfold pyStrip
  rw [h1, h2, List.reverse_reverse]

theorem isPlaceholderLine_phLine (id : List Char) :
    isPlaceholderLine (phLine id) = true := by
  unfold isPlaceholderLine phLine
  rw [Bool.and_eq_true, List.isPrefixOf_iff_prefix, List.isSuffixOf_iff_suffix]
  exact ⟨⟨id ++ lc "]", by simp⟩, ⟨lc "[artifact:" ++ id, by simp [lc]⟩⟩

theorem filter_splitNewline_clean (t : List Char)
    (ht : hasSub (lc "[artifact:") t = false) :
    (splitNewline t).filter (fun l => isPlaceholderLine (pyStrip l)) = [] := by
  rw [List.filter_eq_nil_iff]
  intro l hl
  simp [not_placeholder_of_no_sub t l ht ((mem_splitNewline_seg t).2 l hl)]

theorem filter_ph_taggedSanitized :
    ∀ (pairs : List (List Char × TaggedBlock)) (trailing : List Char),
      (∀ p ∈ pairs, hasSub (lc "[artifact:") p.1 = false) →
      hasSub (lc "[artifact:") trailing = false →
      (∀ p ∈ pairs, '\n' ∉ p.2.id) →
      (splitNewline (taggedSanitized pairs trailing)).filter
          (fun l => isPlaceholderLine (pyStrip l))
        = pairs.map (fun p => phLine p.2.id) := by
  intro pairs
  induction pairs with
  | nil =>
    intro trailing _ htr _
    simpa [taggedSanitized] using filter_splitNewline_clean trailing htr
  | cons p rest ih =>
    intro trailing hcl htr hnl
    obtain ⟨t, b⟩ := p
    have hnlb : '\n' ∉ b.id := hnl (t, b) (List.mem_cons_self _ _)
    have hbody : taggedSanitized ((t, b) :: rest) trailing
        = t ++ '\n' :: ('\n' :: (phLine b.id ++
            '\n' :: ('\n' :: taggedSanitized rest trailing))) := by
      show t ++ phChunk b.id ++ taggedSanitized rest trailing = _
      simp [phChunk, lc]
    rw [hbody, splitNewline_append_nl, splitNewline_nl_cons]
    rw [show (phLine b.id ++ '\n' :: ('\n' :: taggedSanitized rest trailing))
          = phLine b.id ++ '\n' :: ('\n' :: taggedSanitized rest trailing) from rfl]
    rw [splitNewline_append_nl (phLine b.id), splitNewline_nl_cons,
      splitNewline_no_nl (phLine b.id) (by
        intro hmem
        unfold phLine at hmem
        rcases List.mem_append.mp hmem with hmem2 | hmem2
        · rcases List.mem_append.mp hmem2 with hmem3 | hmem3
          · simp [lc] at hmem3
          · exact hnlb hmem3
        · simp [lc] at hmem2)]
    rw [List.filter_append, List.filter_cons, List.filter_append,
      List.filter_cons, List.filter_cons]
    rw [filter_splitNewline_clean t (hcl (t, b) (List.mem_cons_self _ _))]
    have hempty : isPlaceholderLine (pyStrip ([] : List Char)) = false := rfl
    have hph : isPlaceholderLine (pyStrip (phLine b.id)) = true := by
      rw [pyStrip_phLine]; exact isPlaceholderLine_phLine b.id
    simp only [hempty, hph, if_true, if_false, List.nil_append, List.filter_nil]
    rw [ih trailing (fun q hq => hcl q (List.mem_cons_of_mem _ hq)) htr
      (fun q hq => hnl q (List.mem_cons_of_mem _ hq))]
    simp

theorem dictInsert_fresh {α : Type} (m : List (List Char × α)) (k : List Char)
    (v : α) (h : ∀ q ∈ m, q.1 ≠ k) : dictInsert m k v = m ++ [(k, v)] := by
  unfold dictInsert
  rw [if_neg]
  intro hx
  rw [List.any_eq_true] at hx
  obtain ⟨q, hq, hd⟩ := hx
  exact h q hq (of_decide_eq_true hd)

theorem dictLookup_append_right {α : Type} (m : List (List Char × α))
    (k : List Char) (v : α) (h : ∀ q ∈ m, q.1 ≠ k) :
    dictLookup (m ++ [(k, v)]) k = some v := by
  unfold dictLookup
  induction m with
  | nil => simp
  | cons q m ih =>
    rw [List.cons_append, List.find?_cons]
    split
    · rename_i hd
      exact absurd (of_decide_eq_true hd) (h q (List.mem_cons_self _ _))
    · exact ih (fun q2 hq2 => h q2 (List.mem_cons_of_mem _ hq2))

theorem foldl_dictInsert_eq (pairs : List (List Char × TaggedBlock)) :
    ∀ m : List (List Char × ChatArtifact),
      (∀ p ∈ pairs, ∀ q ∈ m, q.1 ≠ p.2.id) →
      (pairs.map (fun p => p.2.id)).Nodup →
      pairs.foldl (fun m p => dictInsert m p.2.id (taggedRecord p.2)) m
        = m ++ pairs.map (fun p => (p.2.id, taggedRecord p.2)) := by
  induction pairs with
  | nil => intro m _ _; simp
  | cons p rest ih =>
    intro m hm hnd
    rw [List.foldl_cons,
      dictInsert_fresh m p.2.id (taggedRecord p.2)
        (hm p (List.mem_cons_self _ _))]
    rw [List.map_cons, List.nodup_cons] at hnd
    rw [ih (m ++ [(p.2.id, taggedRecord p.2)])
      (by
        intro p2 hp2 q hq
        rcases List.mem_append.mp hq with hq2 | hq2
        · exact hm p2 (List.mem_cons_of_mem _ hp2) q hq2
        · have hqe : q = (p.2.id, taggedRecord p.2) := by simpa using hq2
          rw [hqe]
          intro hEq
          have : p.2.id ∈ rest.map (fun x => x.2.id) := by
            rw [show p.2.id = p2.2.id from hEq]
            exact List.mem_map_of_mem (fun x => x.2.id) hp2
          exact hnd.1 this)
      hnd.2]
    simp

theorem taggedArtifacts_eq_map (pairs : List (List Char × TaggedBlock))
    (hnd : (pairs.map (fun p => p.2.id)).Nodup) :
    taggedArtifacts pairs = pairs.map (fun p => (p.2.id, taggedRecord p.2)) := by
  unfold taggedArtifacts
  rw [foldl_dictInsert_eq pairs [] (by simp) hnd]
  simp

/-! # Claim C1 -/

theorem isubF_no_match (m : InlineMatcher) (pat : List Char)
    (hm : ∀ s k, pat.isPrefixOf s = false → m s k = none) :
    ∀ fuel s arts k, hasSub pat s = false →
      isubF m fuel s arts k = (s, arts, k) := by
  intro fuel
  induction fuel with
  | zero => intro s arts k _; rfl
  | succ fuel ih =>
    intro s arts k hs
    cases s with
    | nil => rfl
    | cons c cs =>
      unfold hasSub at hs
      rw [Bool.or_eq_false_iff] at hs
      unfold isubF
      rw [hm _ k hs.1]
      simp [ih cs arts k hs.2]

theorem fencedSvgMatcher_gate (s : List Char) (k : Nat)
    (h : (lc "```svg").isPrefixOf s = false) : fencedSvgMatcher s k = none := by
  simp [fencedSvgMatcher, h]

theorem bareSvgMatcher_gate (s : List Char) (k : Nat)
    (h : (lc "<svg").isPrefixOf s = false) : bareSvgMatcher s k = none := by
  simp [bareSvgMatcher, h]

theorem mermaidMatcher_gate (s : List Char) (k : Nat)
    (h : (lc "```mermaid").isPrefixOf s = false) : mermaidMatcher s k = none := by
  simp [mermaidMatcher, h]

theorem extract_inline_svg_text_no_match (s : List Char) (k : Nat)
    (h1 : hasSub (lc "```svg") s = false)
    (h2 : hasSub (lc "<svg") s = false) :
    extract_inline_svg_text s k = (s, [], k) := by
  have e1 : isub fencedSvgMatcher s [] k = (s, [], k) :=
    isubF_no_match fencedSvgMatcher (lc "```svg") fencedSvgMatcher_gate
      (s.length + 1) s [] k h1
  have e2 : isub bareSvgMatcher s [] k = (s, [], k) :=
    isubF_no_match bareSvgMatcher (lc "<svg") bareSvgMatcher_gate
      (s.length + 1) s [] k h2
  simp only [extract_inline_svg_text, e1, e2]

theorem extract_inline_mermaid_text_no_match (s : List Char) (k : Nat)
    (h : hasSub (lc "```mermaid") s = false) :
    extract_inline_mermaid_text s k = (s, [], k) :=
  isubF_no_match mermaidMatcher (lc "```mermaid") mermaidMatcher_gate
    (s.length + 1) s [] k h

theorem dictUpdate_nil {α : Type} (m : List (List Char × α)) :
    dictUpdate m [] = m := rfl

/-- **C1** (amended). For every document containing `N` well-formed tagged
artifact blocks — with pairwise-distinct, newline-free ids — and no other
artifact forms: no placeholder-form text outside the blocks, and no inline
artifact trigger (no ` ```svg ` fence, no bare `<svg` markup, no
` ```mermaid ` fence) left in the text after the blocks are replaced by
their placeholders — extraction returns a sanitized text whose placeholder
lines are exactly the `N` ids' placeholder tokens in document order, and an
artifact map of exactly `N` records, each record's id equal to its block's
id attribute verbatim, in document order. -/
theorem extract_artifacts_tagged_blocks (d : TaggedDoc)
    (_hwf : TaggedDocWF d)
    (hcl : ∀ p ∈ d.1, hasSub (lc "[artifact:") p.1 = false)
    (htr : hasSub (lc "[artifact:") d.2 = false)
    (hnl : ∀ p ∈ d.1, '\n' ∉ p.2.id)
    (hnd : (d.1.map (fun p => p.2.id)).Nodup)
    (hsvgF : hasSub (lc "```svg") (taggedSanitized d.1 d.2) = false)
    (hsvgB : hasSub (lc "<svg") (taggedSanitized d.1 d.2) = false)
    (hmer : hasSub (lc "```mermaid") (taggedSanitized d.1 d.2) = false) :
    (splitNewline (extract_artifacts d).1).filter
        (fun l => isPlaceholderLine (pyStrip l))
      = d.1.map (fun p => phLine p.2.id)
    ∧ (extract_artifacts d).2
      = d.1.map (fun p => (p.2.id, taggedRecord p.2)) := by
  have e1 := extract_inline_svg_text_no_match (taggedSanitized d.1 d.2)
    (taggedArtifacts d.1).length hsvgF hsvgB
  have e2 := extract_inline_mermaid_text_no_match (taggedSanitized d.1 d.2)
    (taggedArtifacts d.1).length hmer
  have hout : extract_artifacts d
      = (preprocess_latex_math (taggedSanitized d.1 d.2), taggedArtifacts d.1) := by
    simp only [extract_artifacts, e1, e2, dictUpdate_nil]
  rw [hout]
  constructor
  · show (splitNewline (preprocess_latex_math (taggedSanitized d.1 d.2))).filter _ = _
    rw [preprocess_latex_math_id]
    exact filter_ph_taggedSanitized d.1 d.2 hcl htr hnl
  · exact taggedArtifacts_eq_map d.1 hnd

/-- Witness for C1: a two-block document, evaluated concretely. -/
theorem extract_artifacts_tagged_blocks_witness :
    (splitNewline (extract_artifacts
        ([(lc "intro\n", ⟨lc "fig1", lc "1.0", lc "image/svg+xml", lc "Fig one", lc "payload"⟩),
          (lc "middle", ⟨lc "fig2", lc "2", lc "text/plain", lc "Fig two", lc "data"⟩)],
         lc "outro")).1).filter (fun l => isPlaceholderLine (pyStrip l))
      = [phLine (lc "fig1"), phLine (lc "fig2")]
    ∧ (extract_artifacts
        ([(lc "intro\n", ⟨lc "fig1", lc "1.0", lc "image/svg+xml", lc "Fig one", lc "payload"⟩),
          (lc "middle", ⟨lc "fig2", lc "2", lc "text/plain", lc "Fig two", lc "data"⟩)],
         lc "outro")).2
      = [(lc "fig1", ⟨lc "fig1", lc "1.0", lc "image/svg+xml", lc "Fig one", lc "payload"⟩),
         (lc "fig2", ⟨lc "fig2", lc "2", lc "text/plain", lc "Fig two", lc "data"⟩)] := by
  have h := extract_artifacts_tagged_blocks
    ([(lc "intro\n", ⟨lc "fig1", lc "1.0", lc "image/svg+xml", lc "Fig one", lc "payload"⟩),
      (lc "middle", ⟨lc "fig2", lc "2", lc "text/plain", lc "Fig two", lc "data"⟩)],
     lc "outro")
    (by decide) (by decide) (by decide) (by decide) (by decide)
    (by decide) (by decide) (by decide)
  refine ⟨h.1.trans (by decide), h.2.trans (by decide)⟩

/-- Counterexample for C1 as stated: two well-formed tagged blocks that
share the id `a` form a document with `N = 2` blocks and no other artifact
forms, yet the artifact map holds only one record (the duplicate
overwrites), not `N`. -/
theorem extract_artifacts_duplicate_id_counterexample :
    TaggedDocWF ([(lc "", ⟨lc "a", lc "1", lc "t", lc "x", lc "b1"⟩),
                  (lc "mid", ⟨lc "a", lc "1", lc "t", lc "x", lc "b2"⟩)], lc "")
    ∧ ([(lc "", (⟨lc "a", lc "1", lc "t", lc "x", lc "b1"⟩ : TaggedBlock)),
        (lc "mid", ⟨lc "a", lc "1", lc "t", lc "x", lc "b2"⟩)]).length = 2
    ∧ (extract_artifacts ([(lc "", ⟨lc "a", lc "1", lc "t", lc "x", lc "b1"⟩),
        (lc "mid", ⟨lc "a", lc "1", lc "t", lc "x", lc "b2"⟩)], lc "")).2.length = 1 := by
  refine ⟨by decide, by decide, by decide⟩

/-! # Claim C2 -/

/-- **C2** (amended). For every input text and artifact map, if every
placeholder-form line's id is absent from the map, then resolution emits
each placeholder line stripped of its leading/trailing whitespace (hence
character-for-character unchanged exactly when it carries none) and every
non-placeholder line unchanged. -/
theorem replace_artifacts_unknown_id (renderSvg renderMermaid : ChatArtifact → List Char)
    (md : List Char) (artifacts : List (List Char × ChatArtifact))
    (h : ∀ l ∈ splitNewline md, isPlaceholderLine (pyStrip l) = true →
      dictLookup artifacts (placeholderId (pyStrip l)) = none) :
    replace_artifacts_in_markdown renderSvg renderMermaid md artifacts
      = joinNewline ((splitNewline md).map
          (fun l => if isPlaceholderLine (pyStrip l) then pyStrip l else l)) := by
  unfold replace_artifacts_in_markdown
  congr 1
  apply List.map_congr_left
  intro l hl
  unfold resolveLine
  cases hx : isPlaceholderLine (pyStrip l) with
  | true => simp [hx, h l hl hx]
  | false => simp [hx]

/-- Witness for C2: a document with one unknown whitespace-padded
placeholder line. -/
theorem replace_artifacts_unknown_id_witness :
    replace_artifacts_in_markdown (fun _ => []) (fun _ => [])
        (lc "a\n [artifact:q] \nb") []
      = lc "a\n[artifact:q]\nb" := by
  have h := replace_artifacts_unknown_id (fun _ => []) (fun _ => [])
    (lc "a\n [artifact:q] \nb") [] (by decide)
  exact h.trans (by decide)

/-- Counterexample for C2 as stated: a placeholder line with leading
whitespace and an id absent from the map is returned stripped, not
character-for-character unchanged. -/
theorem replace_artifacts_strips_counterexample :
    replace_artifacts_in_markdown (fun _ => []) (fun _ => [])
        (lc "  [artifact:x]") []
      ≠ lc "  [artifact:x]" := by decide

/-! # Claim C6 -/

/-- **C6**. For every text element processed by the math-notation
translation (its content contains `$`), if the translated content has
unbalanced decoration-span counts (`<tspan` vs `</tspan>`), the entire
translation is discarded and the element is reassembled with its original
content unchanged. -/
theorem replace_latex_unbalanced_reverts (attrs content : List Char)
    (h1 : hasSub ['$'] content = true)
    (h2 : countOcc tspanLit (translateLatex content)
        ≠ countOcc tspanCloseLit (translateLatex content)) :
    replace_latex_in_text attrs content = renderTextEl attrs content := by
  unfold replace_latex_in_text replaceLatexContent
  rw [if_neg (by simp [h1]), if_pos h2]

/-- Witness for C6: the content `$a$</tspan>` translates to an unbalanced
result (one `<tspan`, two `</tspan>`) and is reverted. -/
theorem replace_latex_unbalanced_reverts_witness :
    hasSub ['$'] (lc "$a$</tspan>") = true
    ∧ countOcc tspanLit (translateLatex (lc "$a$</tspan>"))
        ≠ countOcc tspanCloseLit (translateLatex (lc "$a$</tspan>"))
    ∧ replace_latex_in_text (lc " x=\"1\"") (lc "$a$</tspan>")
        = renderTextEl (lc " x=\"1\"") (lc "$a$</tspan>") :=
  ⟨by decide, by decide,
    replace_latex_unbalanced_reverts (lc " x=\"1\"") (lc "$a$</tspan>")
      (by decide) (by decide)⟩

/-! # Claim C3 -/

/-- Counterexample for C3 as stated: for the diagram text
`flowchart LR\nA[Start]-->B{Check}` the parser yields **no** edge and **no**
node `B` — the arrow token requires surrounding spaces (`" --> "`), so the
line is treated as a node line, and first-match-wins stops at `A[Start]`. -/
theorem mermaid_unspaced_arrow_counterexample :
    (process_mermaid_parse (lc "flowchart LR\nA[Start]-->B\x7bCheck\x7d")).edges = []
    ∧ dictLookup (process_mermaid_parse
        (lc "flowchart LR\nA[Start]-->B\x7bCheck\x7d")).nodes (lc "B") = none := by
  refine ⟨by decide, by decide⟩

/-- **C3** (amended). For the diagram text
`flowchart LR\nA[Start]-->B{Check}` the parser produces exactly one node —
`A` with label `Start` and rectangle (box / light-blue) styling — and no
edge; `B` is never created because the unspaced `-->` is not recognized as
an edge token. -/
theorem process_mermaid_parse_unspaced_arrow :
    process_mermaid_parse (lc "flowchart LR\nA[Start]-->B\x7bCheck\x7d")
      = { direction := lc "LR",
          nodes := [(lc "A", lc "Start")],
          styles := [(lc "A", rectStyle)],
          edges := [] } := by decide

/-! # Claim C4 -/

/-- **C4** (code bug). `fix_svg_errors` is not idempotent on well-formed
markup: a document containing the complex-formula marker `\frac{` (in a
text element carrying no `$`, hence untouched by translation) receives the
math `<style>` block once on the first run and a second copy — appended
into the same `<defs>` — on the second run, so
`fix(fix s) ≠ fix s`. -/
theorem fix_svg_errors_not_idempotent :
    countOcc (lc "<style")
        (fix_svg_errors (lc "<svg width=\"100\"><text x=\"1\">\\frac\x7ba\x7d\x7bb\x7d</text><line x1=\"0\" y1=\"0\" x2=\"5\" y2=\"5\"/></svg>")) = 1
    ∧ countOcc (lc "<style")
        (fix_svg_errors (fix_svg_errors (lc "<svg width=\"100\"><text x=\"1\">\\frac\x7ba\x7d\x7bb\x7d</text><line x1=\"0\" y1=\"0\" x2=\"5\" y2=\"5\"/></svg>"))) = 2
    ∧ fix_svg_errors (fix_svg_errors (lc "<svg width=\"100\"><text x=\"1\">\\frac\x7ba\x7d\x7bb\x7d</text><line x1=\"0\" y1=\"0\" x2=\"5\" y2=\"5\"/></svg>"))
      ≠ fix_svg_errors (lc "<svg width=\"100\"><text x=\"1\">\\frac\x7ba\x7d\x7bb\x7d</text><line x1=\"0\" y1=\"0\" x2=\"5\" y2=\"5\"/></svg>") := by
  refine ⟨by decide, by decide, by decide⟩

/-! # Claim C8 -/

/-- **C8** (code bug). A vertical line missing `y2` (`x1 = x2 = 50`,
`y1 = 100`) is repaired with `y2 = y1 = "100"`: the general missing-`y2`
rule fires first and shadows the vertical-line rule, whose fixed default
`y2="50"` never appears — the code's own comment announces a vertical-line
default that is dead code. -/
theorem fix_svg_errors_vertical_line_y2 :
    fix_svg_errors (lc "<svg><line x1=\"50\" y1=\"100\" x2=\"50\" stroke=\"black\"/></svg>")
      = lc "<svg><line x1=\"50\" y1=\"100\" x2=\"50\" y2=\"100\" stroke=\"black\"/></svg>"
    ∧ hasSub (lc "y2=\"50\"")
        (fix_svg_errors (lc "<svg><line x1=\"50\" y1=\"100\" x2=\"50\" stroke=\"black\"/></svg>"))
      = false := by
  refine ⟨by decide, by decide⟩

/-! # Claim C10 -/

theorem extract_inline_mermaid_append (pre rest : List MermaidSeg) :
    ∀ (arts : List (List Char × ChatArtifact)) (k : Nat),
      extract_inline_mermaid (pre ++ rest) arts k
        = ((extract_inline_mermaid pre arts k).1
            ++ (extract_inline_mermaid rest (extract_inline_mermaid pre arts k).2.1
                (extract_inline_mermaid pre arts k).2.2).1,
           (extract_inline_mermaid rest (extract_inline_mermaid pre arts k).2.1
             (extract_inline_mermaid pre arts k).2.2).2) := by
  induction pre with
  | nil => intro arts k; simp [extract_inline_mermaid]
  | cons s pre ih =>
    intro arts k
    cases s with
    | text t => simp [extract_inline_mermaid, ih]
    | block i => simp [extract_inline_mermaid, ih]

/-- **C10**. For every document containing a fenced mermaid block whose
content is empty or whitespace-only, extraction emits that block's raw text
unchanged in place, stores no artifact record for it, and does not advance
the id counter; the rest of the document is processed as if the block were
absent. -/
theorem extract_inline_mermaid_blank_block (pre post : List MermaidSeg)
    (arts : List (List Char × ChatArtifact)) (k : Nat) (interior : List Char)
    (h : pyStrip interior = []) :
    extract_inline_mermaid (pre ++ MermaidSeg.block interior :: post) arts k
      = ((extract_inline_mermaid pre arts k).1
          ++ ((lc "```mermaid" ++ interior ++ lc "```")
            ++ (extract_inline_mermaid post (extract_inline_mermaid pre arts k).2.1
                (extract_inline_mermaid pre arts k).2.2).1),
         (extract_inline_mermaid post (extract_inline_mermaid pre arts k).2.1
           (extract_inline_mermaid pre arts k).2.2).2) := by
  rw [extract_inline_mermaid_append]
  have hstep : ∀ (a2 : List (List Char × ChatArtifact)) (k2 : Nat),
      extract_inline_mermaid (MermaidSeg.block interior :: post) a2 k2
        = ((lc "```mermaid" ++ interior ++ lc "```")
            ++ (extract_inline_mermaid post a2 k2).1,
           (extract_inline_mermaid post a2 k2).2) := by
    intro a2 k2
    simp [extract_inline_mermaid, mermaidReplacer, h, renderMermaidSeg]
  rw [hstep]

/-- Witness for C10: a whitespace-only mermaid block between two text
segments passes through extraction verbatim with no artifact stored. -/
theorem extract_inline_mermaid_blank_block_witness :
    extract_inline_mermaid
        [MermaidSeg.text (lc "A"), MermaidSeg.block (lc " \n "),
         MermaidSeg.text (lc "B")] [] 0
      = (lc "A```mermaid \n ```B", [], 0) := by
  have h := extract_inline_mermaid_blank_block [MermaidSeg.text (lc "A")]
    [MermaidSeg.text (lc "B")] [] 0 (lc " \n ") (by decide)
  exact h.trans (by decide)

/-! # Claim C5 -/

theorem dictInsert_forall {α : Type} (P : List Char × α → Prop)
    (m : List (List Char × α)) (k : List Char) (v : α)
    (hm : ∀ q ∈ m, P q) (hv : P (k, v)) :
    ∀ q ∈ dictInsert m k v, P q := by
  intro q hq
  unfold dictInsert at hq
  split at hq
  · rw [List.mem_map] at hq
    obtain ⟨p, hp, he⟩ := hq
    by_cases hk : p.1 = k
    · rw [if_pos hk] at he; rw [← he]; exact hv
    · rw [if_neg hk] at he; rw [← he]; exact hm p hp
  · rcases List.mem_append.mp hq with h | h
    · exact hm q h
    · have : q = (k, v) := by simpa using h
      rw [this]; exact hv

theorem svgStore_repaired (c : List Char) (k : Nat) (p : List Char × ChatArtifact)
    (h : (svgStore c k).2.1 = some p) :
    ∃ raw, p.2.content = fix_svg_errors raw := by
  unfold svgStore at h
  refine ⟨c, ?_⟩
  cases h
  rfl

theorem svgReplacerFenced_repaired (i : List Char) (k : Nat)
    (p : List Char × ChatArtifact) (h : (svgReplacerFenced i k).2.1 = some p) :
    ∃ raw, p.2.content = fix_svg_errors raw := by
  simp only [svgReplacerFenced] at h
  split at h
  · exact svgStore_repaired _ _ _ h
  · exact absurd h (by simp)

theorem svgReplacerBare_repaired (r : List Char) (k : Nat)
    (p : List Char × ChatArtifact) (h : (svgReplacerBare r k).2.1 = some p) :
    ∃ raw, p.2.content = fix_svg_errors raw := by
  simp only [svgReplacerBare] at h
  split at h
  · exact absurd h (by simp)
  · exact svgStore_repaired _ _ _ h

theorem svgPassFenced_repaired (d : List SvgSeg) :
    ∀ (arts : List (List Char × ChatArtifact)) (k : Nat),
      (∀ q ∈ arts, ∃ raw, q.2.content = fix_svg_errors raw) →
      ∀ q ∈ (svgPassFenced d arts k).2.1,
        ∃ raw, q.2.content = fix_svg_errors raw := by
  induction d with
  | nil => intro arts k h; exact h
  | cons s d ih =>
    intro arts k h
    cases s with
    | text t => exact ih arts k h
    | bare r => exact ih arts k h
    | fenced i =>
      intro q hq
      have hq2 : q ∈ (svgPassFenced d
          (match (svgReplacerFenced i k).2.1 with
           | some p => dictInsert arts p.1 p.2
           | none => arts)
          (svgReplacerFenced i k).2.2).2.1 := hq
      cases hr : (svgReplacerFenced i k).2.1 with
      | none =>
        rw [hr] at hq2
        exact ih _ _ h q hq2
      | some p =>
        rw [hr] at hq2
        exact ih _ _ (dictInsert_forall _ arts p.1 p.2 h
          (svgReplacerFenced_repaired i k p hr)) q hq2

theorem svgPassBare_repaired (d : List SvgSeg) :
    ∀ (arts : List (List Char × ChatArtifact)) (k : Nat),
      (∀ q ∈ arts, ∃ raw, q.2.content = fix_svg_errors raw) →
      ∀ q ∈ (svgPassBare d arts k).2.1,
        ∃ raw, q.2.content = fix_svg_errors raw := by
  induction d with
  | nil => intro arts k h; exact h
  | cons s d ih =>
    intro arts k h
    cases s with
    | text t => exact ih arts k h
    | fenced i => exact ih arts k h
    | bare r =>
      intro q hq
      have hq2 : q ∈ (svgPassBare d
          (match (svgReplacerBare r k).2.1 with
           | some p => dictInsert arts p.1 p.2
           | none => arts)
          (svgReplacerBare r k).2.2).2.1 := hq
      cases hr : (svgReplacerBare r k).2.1 with
      | none =>
        rw [hr] at hq2
        exact ih _ _ h q hq2
      | some p =>
        rw [hr] at hq2
        exact ih _ _ (dictInsert_forall _ arts p.1 p.2 h
          (svgReplacerBare_repaired r k p hr)) q hq2

/-- **C5** (amended). Every artifact stored by `extract_inline_svg` —
fenced or bare inline vector markup — carries as its `content` the output
of `fix_svg_errors` on some raw markup (its own source markup): every
*inline* vector artifact passes through repair before rendering. Tagged
vector artifacts do **not** (see the counterexample). -/
theorem extract_inline_svg_repaired (d : List SvgSeg) (k : Nat) :
    ∀ q ∈ (extract_inline_svg d k).2.1,
      ∃ raw, q.2.content = fix_svg_errors raw := by
  have hx : extract_inline_svg d k
      = svgPassBare (svgPassFenced d [] k).1 (svgPassFenced d [] k).2.1
          (svgPassFenced d [] k).2.2 := rfl
  rw [hx]
  exact svgPassBare_repaired _ _ _
    (svgPassFenced_repaired d [] k (by simp))

/-- Witness for C5 (amended): the bare inline artifact of a concrete
document carries repaired content. -/
theorem extract_inline_svg_repaired_witness :
    ∃ raw,
      ((lc "inline_svg_0",
        ({ id := lc "inline_svg_0", version := lc "1.0", type := svgMime,
           title := lc "Ti",
           content := fix_svg_errors (lc "<svg b=\"2\"><title>Ti</title></svg>") }
          : ChatArtifact)) : List Char × ChatArtifact).2.content
        = fix_svg_errors raw :=
  extract_inline_svg_repaired [SvgSeg.bare (lc "<svg b=\"2\"><title>Ti</title></svg>")] 0
    _ (by decide)

/-- Counterexample for C5 as stated: a tagged artifact of vector type is
stored (and later handed to `process_svg_artifact`) with its raw body
as-is; `fix_svg_errors` would have changed it (it fills in the missing
`y2`), so the content handed to the rendering pipeline is *not* the output
of the repairer. -/
theorem tagged_svg_unrepaired_counterexample :
    dictLookup (extract_artifacts
        ([(lc "", ⟨lc "fig", lc "1.0", lc "image/svg+xml", lc "T",
            lc "<svg height=\"40\"><line x1=\"50\" y1=\"100\" x2=\"70\" stroke=\"black\"/></svg>"⟩)],
         lc "")).2 (lc "fig")
      = some ⟨lc "fig", lc "1.0", lc "image/svg+xml", lc "T",
          lc "<svg height=\"40\"><line x1=\"50\" y1=\"100\" x2=\"70\" stroke=\"black\"/></svg>"⟩
    ∧ (lc "<svg height=\"40\"><line x1=\"50\" y1=\"100\" x2=\"70\" stroke=\"black\"/></svg>")
      ≠ fix_svg_errors
          (lc "<svg height=\"40\"><line x1=\"50\" y1=\"100\" x2=\"70\" stroke=\"black\"/></svg>") := by
  refine ⟨by decide, by decide⟩

/-! # Claim C7 -/

theorem hasSub_cons_false (pat : List Char) (c : Char) (cs : List Char)
    (h : hasSub pat (c :: cs) = false) :
    pat.isPrefixOf (c :: cs) = false ∧ hasSub pat cs = false := by
  unfold hasSub at h
  exact Bool.or_eq_false_iff.mp h

theorem rsubF_no_match (m : Matcher) (pat : List Char)
    (hm : ∀ t, pat.isPrefixOf t = false → m t = none) :
    ∀ fuel s, hasSub pat s = false → rsubF m fuel s = s := by
  intro fuel
  induction fuel with
  | zero => intro s _; rfl
  | succ fuel ih =>
    intro s hs
    cases s with
    | nil => rfl
    | cons c cs =>
      obtain ⟨h1, h2⟩ := hasSub_cons_false pat c cs hs
      unfold rsubF
      rw [hm _ h1]
      simp [ih cs h2]

theorem msearchF_no_match (m : Matcher) (pat : List Char)
    (hm : ∀ t, pat.isPrefixOf t = false → m t = none)
    (hpat : pat ≠ []) :
    ∀ fuel s, hasSub pat s = false → msearchF m fuel s = false := by
  intro fuel
  induction fuel with
  | zero => intro s _; rfl
  | succ fuel ih =>
    intro s hs
    cases s with
    | nil =>
      show (m []).isSome = false
      rw [hm []]
      · rfl
      · cases hp : pat.isPrefixOf ([] : List Char)
        · rfl
        · exact absurd (by simpa using List.isPrefixOf_iff_prefix.mp hp) hpat
    | cons c cs =>
      obtain ⟨h1, h2⟩ := hasSub_cons_false pat c cs hs
      unfold msearchF
      rw [hm _ h1, ih cs h2]
      rfl

theorem countMatchesF_no_match (m : Matcher) (pat : List Char)
    (hm : ∀ t, pat.isPrefixOf t = false → m t = none) :
    ∀ fuel s, hasSub pat s = false → countMatchesF m fuel s = 0 := by
  intro fuel
  induction fuel with
  | zero => intro s _; rfl
  | succ fuel ih =>
    intro s hs
    cases s with
    | nil => rfl
    | cons c cs =>
      obtain ⟨h1, h2⟩ := hasSub_cons_false pat c cs hs
      unfold countMatchesF
      rw [hm _ h1]
      exact ih cs h2

theorem specialStripMatcher_gate (t : List Char)
    (h : (lc "<rect").isPrefixOf t = false) : specialStripMatcher t = none := by
  simp [specialStripMatcher, dropLit, h]

theorem blackRectMatcher_gate (t : List Char)
    (h : (lc "<rect").isPrefixOf t = false) : blackRectMatcher t = none := by
  simp [blackRectMatcher, dropLit, h]

theorem blackRect2Matcher_gate (t : List Char)
    (h : (lc "<rect").isPrefixOf t = false) : blackRect2Matcher t = none := by
  simp [blackRect2Matcher, dropLit, h]

theorem fixSvgStep3_no_rect (s : List Char)
    (h : hasSub (lc "<rect") s = false) : fixSvgStep3 s = (s, 0) := by
  have h1 : msearch specialStripMatcher s = false :=
    msearchF_no_match _ _ specialStripMatcher_gate (by decide) _ s h
  have h2 : rsub blackRect2Matcher s = s :=
    rsubF_no_match _ _ blackRect2Matcher_gate _ s h
  have h3 : countBlackRects s = 0 :=
    countMatchesF_no_match _ _ blackRectMatcher_gate _ s h
  simp [fixSvgStep3, h1, h2, h3]

/-- **C7** (amended). For every vector markup that carries one of the two
recognized captions (figure 8 / figure 9), in which after steps 1–3 (line
repair, math translation, stray-black-rectangle removal) no line primitive
matching the axis check remains and step 3 counted no black rectangle — so
that the curated fallback of step 5 is not taken — the repair output is the
step-3 markup with the two default axis lines substituted for its closing
`</svg>` tag. Without a recognized caption nothing is appended (see the
counterexample). -/
theorem fix_svg_errors_axis_restore (svg0 : List Char)
    (hcap : hasSub fig8Caption svg0 = true ∨ hasSub fig9Caption svg0 = true)
    (hblack : (fixSvgStep3 (fixSvgThroughStep2 svg0)).2 = 0)
    (hax : hasAxes (fixSvgStep3 (fixSvgThroughStep2 svg0)).1 = false) :
    fix_svg_errors svg0
      = pyReplace (lc "</svg>") defaultAxes
          (fixSvgStep3 (fixSvgThroughStep2 svg0)).1 := by
  have hor : (hasSub fig8Caption svg0 || hasSub fig9Caption svg0) = true := by
    rcases hcap with h | h <;> simp [h]
  simp only [fix_svg_errors, hor, hblack, hax, if_true, Bool.false_eq_true, if_false,
    gt_iff_lt, Nat.lt_irrefl]
  cases h9 : hasSub fig9Caption svg0 with
  | true => simp [h9]
  | false =>
    rcases hcap with h8 | h8
    · simp [h9, h8]
    · rw [h9] at h8
      exact absurd h8 (by simp)

/-- Witness for C7 (amended): a caption-matched markup with no lines and no
black rectangles gets the default axes appended before `</svg>`. -/
theorem fix_svg_errors_axis_restore_witness :
    fix_svg_errors (lc "<svg width=\"10\">Cp参数与球间距离的理论关系</svg>")
      = pyReplace (lc "</svg>") defaultAxes
          (fixSvgStep3 (fixSvgThroughStep2
            (lc "<svg width=\"10\">Cp参数与球间距离的理论关系</svg>"))).1 :=
  fix_svg_errors_axis_restore _ (Or.inl (by decide)) (by decide) (by decide)

/-- Counterexample for C7 as stated: markup with no line primitive at all
but no recognized caption is returned unchanged — no default axis lines are
appended. -/
theorem fix_svg_errors_no_axis_restore_counterexample :
    fix_svg_errors (lc "<svg width=\"10\"></svg>") = lc "<svg width=\"10\"></svg>"
    ∧ hasSub (lc "<line") (fix_svg_errors (lc "<svg width=\"10\"></svg>")) = false := by
  refine ⟨by decide, by decide⟩

/-! # Claim C9 -/

theorem find?_map_overwrite {α : Type} (k : List Char) (v : α) :
    ∀ m : List (List Char × α),
      (m.any fun p => decide (p.1 = k)) = true →
      (m.map (fun p => if p.1 = k then (k, v) else p)).find?
          (fun q => decide (q.1 = k)) = some (k, v) := by
  intro m
  induction m with
  | nil => simp
  | cons p m ih =>
    intro hany
    rw [List.map_cons, List.find?_cons]
    by_cases hp : p.1 = k
    · rw [if_pos hp]
      simp
    · rw [if_neg hp]
      have hpred : decide (p.1 = k) = false := by
        simpa using hp
      rw [hpred]
      apply ih
      simp only [List.any_cons, hpred, Bool.false_or] at hany
      exact hany

theorem find?_map_overwrite_ne {α : Type} (k : List Char) (v : α)
    (x : List Char) (hx : x ≠ k) :
    ∀ m : List (List Char × α),
      (m.map (fun p => if p.1 = k then (k, v) else p)).find?
          (fun q => decide (q.1 = x))
        = m.find? (fun q => decide (q.1 = x)) := by
  intro m
  induction m with
  | nil => rfl
  | cons p m ih =>
    rw [List.map_cons, List.find?_cons, List.find?_cons]
    by_cases hp : p.1 = k
    · rw [if_pos hp]
      have h1 : decide (((k, v) : List Char × α).1 = x) = false := by
        simp
        exact fun h => hx h.symm
      have h2 : decide (p.1 = x) = false := by
        simp [hp]
        exact fun h => hx h.symm
      rw [h1, h2]
      exact ih
    · rw [if_neg hp]
      cases hd : decide (p.1 = x)
      · exact ih
      · rfl

theorem dictLookup_insert_self {α : Type} (m : List (List Char × α))
    (k : List Char) (v : α) : dictLookup (dictInsert m k v) k = some v := by
  unfold dictInsert dictLookup
  split
  · rename_i hany
    rw [find?_map_overwrite k v m hany]
    rfl
  · rename_i hany
    rw [List.find?_append]
    have hnone : m.find? (fun q => decide (q.1 = k)) = none := by
      rw [List.find?_eq_none]
      intro q hq hd
      exact hany (List.any_eq_true.mpr ⟨q, hq, hd⟩)
    rw [hnone]
    simp

theorem dictLookup_insert_ne {α : Type} (m : List (List Char × α))
    (k : List Char) (v : α) (x : List Char) (hx : x ≠ k) :
    dictLookup (dictInsert m k v) x = dictLookup m x := by
  unfold dictInsert dictLookup
  split
  · rw [find?_map_overwrite_ne k v x hx m]
  · rw [List.find?_append]
    cases hf : m.find? (fun q => decide (q.1 = x)) with
    | none =>
      rw [List.find?_cons]
      have : decide (((k, v) : List Char × α).1 = x) = false := by
        simp
        exact fun h => hx h.symm
      rw [this]
      simp
    | some q => simp

theorem findSub_isSome_of_hasSub (sep : List Char) :
    ∀ s, hasSub sep s = true → (findSub sep s).isSome = true := by
  intro s
  induction s with
  | nil =>
    intro h
    unfold hasSub at h
    unfold findSub
    rw [if_pos h]
    rfl
  | cons c cs ih =>
    intro h
    unfold hasSub at h
    unfold findSub
    rcases Bool.or_eq_true_iff.mp h with h1 | h1
    · rw [if_pos h1]; rfl
    · split
      · rfl
      · have := ih h1
        cases hfs : findSub sep cs with
        | none => rw [hfs] at this; exact absurd this (by simp)
        | some p => obtain ⟨b, a⟩ := p; rfl

theorem splitOnSub_two_parts (sep line : List Char)
    (h : hasSub sep line = true) :
    ∃ p0 p1 rest, splitOnSub sep line = p0 :: p1 :: rest := by
  unfold splitOnSub splitOnSubF
  cases hfs : findSub sep line with
  | none =>
    have := findSub_isSome_of_hasSub sep line h
    rw [hfs] at this
    exact absurd this (by simp)
  | some p =>
    obtain ⟨b, a⟩ := p
    cases hf2 : splitOnSubF sep line.length a with
    | nil =>
      exfalso
      revert hf2
      generalize line.length = fuel
      cases fuel with
      | zero => simp [splitOnSubF]
      | succ f =>
        unfold splitOnSubF
        cases findSub sep a <;> simp
    | cons q qs =>
      refine ⟨b, q, qs, ?_⟩
      show b :: splitOnSubF sep line.length a = b :: q :: qs
      rw [hf2]

theorem synthPart_eq (nm : NodeState) (p : List Char) :
    synthPart nm p =
      match leadingId (pyStrip p) with
      | none => nm
      | some i =>
        if (dictLookup nm.1 i).isSome then nm
        else
          match searchBracket (pyStrip p) with
          | some v => (dictInsert nm.1 i (stripQuotes v), dictInsert nm.2 i rectStyle)
          | none => (dictInsert nm.1 i i, dictInsert nm.2 i plainStyle) := rfl

theorem synthPart_preserve (nm : NodeState) (p x : List Char)
    (L : List Char) (S : NodeStyle)
    (hn : dictLookup nm.1 x = some L) (hs : dictLookup nm.2 x = some S) :
    dictLookup (synthPart nm p).1 x = some L
    ∧ dictLookup (synthPart nm p).2 x = some S := by
  rw [synthPart_eq]
  split
  · exact ⟨hn, hs⟩
  · rename_i i hid
    split
    · exact ⟨hn, hs⟩
    · rename_i hlk
      have hxi : x ≠ i := by
        intro h
        rw [← h, hn] at hlk
        simp at hlk
      split
      · rename_i v hsb
        exact ⟨(dictLookup_insert_ne nm.1 i (stripQuotes v) x hxi).trans hn,
          (dictLookup_insert_ne nm.2 i rectStyle x hxi).trans hs⟩
      · exact ⟨(dictLookup_insert_ne nm.1 i i x hxi).trans hn,
          (dictLookup_insert_ne nm.2 i plainStyle x hxi).trans hs⟩

theorem synthPart_none_preserve (nm : NodeState) (p x : List Char)
    (hx : dictLookup nm.1 x = none)
    (hne : ¬leadingId (pyStrip p) = some x) :
    dictLookup (synthPart nm p).1 x = none := by
  rw [synthPart_eq]
  split
  · exact hx
  · rename_i i hid
    have hxi : x ≠ i := by
      intro h
      exact hne (by rw [hid, h])
    split
    · exact hx
    · split
      · rename_i v hsb
        exact (dictLookup_insert_ne nm.1 i (stripQuotes v) x hxi).trans hx
      · exact (dictLookup_insert_ne nm.1 i i x hxi).trans hx

theorem foldl_synthPart_preserve (cs : List (List Char)) :
    ∀ (nm : NodeState) (x L : List Char) (S : NodeStyle),
      dictLookup nm.1 x = some L → dictLookup nm.2 x = some S →
      dictLookup (cs.foldl synthPart nm).1 x = some L
      ∧ dictLookup (cs.foldl synthPart nm).2 x = some S := by
  induction cs with
  | nil => intro nm x L S hn hs; exact ⟨hn, hs⟩
  | cons c cs ih =>
    intro nm x L S hn hs
    rw [List.foldl_cons]
    obtain ⟨hn2, hs2⟩ := synthPart_preserve nm c x L S hn hs
    exact ih _ x L S hn2 hs2

theorem foldl_synthPart_first (cs : List (List Char)) :
    ∀ (nm : NodeState) (x occ : List Char),
      dictLookup nm.1 x = none →
      cs.find? (fun p => decide (leadingId (pyStrip p) = some x)) = some occ →
      dictLookup (cs.foldl synthPart nm).1 x
        = some (match searchBracket (pyStrip occ) with
                | some v => stripQuotes v
                | none => x)
      ∧ dictLookup (cs.foldl synthPart nm).2 x
        = some (match searchBracket (pyStrip occ) with
                | some _ => rectStyle
                | none => plainStyle) := by
  induction cs with
  | nil => intro nm x occ _ hf; simp at hf
  | cons c cs ih =>
    intro nm x occ hx hf
    rw [List.find?_cons] at hf
    split at hf
    · rename_i hd
      have hid : leadingId (pyStrip c) = some x := of_decide_eq_true hd
      cases hf
      rw [List.foldl_cons]
      have hstep : dictLookup (synthPart nm c).1 x
          = some (match searchBracket (pyStrip c) with
                  | some v => stripQuotes v
                  | none => x)
          ∧ dictLookup (synthPart nm c).2 x
          = some (match searchBracket (pyStrip c) with
                  | some _ => rectStyle
                  | none => plainStyle) := by
        rw [synthPart_eq, hid]
        simp only [hx, Option.isSome_none, Bool.false_eq_true, if_false]
        cases searchBracket (pyStrip c) with
        | none =>
          exact ⟨dictLookup_insert_self nm.1 x x,
            dictLookup_insert_self nm.2 x plainStyle⟩
        | some v =>
          exact ⟨dictLookup_insert_self nm.1 x (stripQuotes v),
            dictLookup_insert_self nm.2 x rectStyle⟩
      exact foldl_synthPart_preserve cs _ x _ _ hstep.1 hstep.2
    · rename_i hd
      have hne : ¬leadingId (pyStrip c) = some x := by
        intro h
        rw [h] at hd
        simp at hd
      rw [List.foldl_cons]
      exact ih (synthPart nm c) x occ
        (synthPart_none_preserve nm c x hx hne) hf

theorem synthesisPass_eq (ls : List (List Char)) :
    ∀ nm : NodeState,
      synthesisPass ls nm = (synthCandidates ls).foldl synthPart nm := by
  induction ls with
  | nil => intro nm; rfl
  | cons line ls ih =>
    intro nm
    show (line :: ls).foldl synthLine nm = _
    rw [List.foldl_cons]
    cases harrow : hasSub arrowSep line with
    | false =>
      have h1 : synthLine nm line = nm := by
        unfold synthLine
        rw [harrow]
        simp
      have h2 : synthCandidates (line :: ls) = synthCandidates ls := by
        unfold synthCandidates
        rw [List.foldr_cons, harrow]
        simp
      rw [h1, h2]
      exact ih nm
    | true =>
      obtain ⟨p0, p1, rest, hsplit⟩ := splitOnSub_two_parts arrowSep line harrow
      have h1 : synthLine nm line = synthPart (synthPart nm p0) p1 := by
        unfold synthLine
        rw [harrow]
        simp only [if_true, hsplit, List.headD_cons]
      have h2 : synthCandidates (line :: ls)
          = p0 :: p1 :: synthCandidates ls := by
        unfold synthCandidates
        rw [List.foldr_cons, harrow]
        simp only [if_true, hsplit]
        rfl
      rw [h1, h2]
      show _ = ((p0 :: p1 :: synthCandidates ls).foldl synthPart nm)
      rw [List.foldl_cons, List.foldl_cons]
      exact ih _

theorem styleLine_nodes (nm : NodeState) (line : List Char) :
    (styleLine nm line).1 = nm.1 := by
  simp only [styleLine]
  split
  · split
    · split <;> rfl
    · rfl
  · rfl

theorem stylePass_nodes (ls : List (List Char)) :
    ∀ nm : NodeState, (stylePass ls nm).1 = nm.1 := by
  induction ls with
  | nil => intro nm; rfl
  | cons line ls ih =>
    intro nm
    show (ls.foldl styleLine (styleLine nm line)).1 = nm.1
    rw [show (ls.foldl styleLine (styleLine nm line)) = stylePass ls (styleLine nm line) from rfl]
    rw [ih (styleLine nm line)]
    exact styleLine_nodes nm line

theorem styleLine_styles_preserve (nm : NodeState) (line x : List Char)
    (S : NodeStyle) (hs : dictLookup nm.2 x = some S)
    (hst : (lc "style ").isPrefixOf (pyStrip line) = true →
      (pySplitSpace2 (pyStrip line)).getD 1 [] ≠ x) :
    dictLookup (styleLine nm line).2 x = some S := by
  simp only [styleLine]
  split
  · rename_i hpre
    split
    · rename_i a nodeId styleStr rest heq
      have hne : x ≠ nodeId := by
        intro h
        exact hst hpre (by rw [heq]; simpa using h.symm)
      split
      · exact (dictLookup_insert_ne nm.2 nodeId _ x hne).trans hs
      · exact hs
    · exact hs
  · exact hs

theorem stylePass_styles_preserve (ls : List (List Char)) :
    ∀ (nm : NodeState) (x : List Char) (S : NodeStyle),
      dictLookup nm.2 x = some S →
      (∀ line ∈ ls, (lc "style ").isPrefixOf (pyStrip line) = true →
        (pySplitSpace2 (pyStrip line)).getD 1 [] ≠ x) →
      dictLookup (stylePass ls nm).2 x = some S := by
  induction ls with
  | nil => intro nm x S hs _; exact hs
  | cons line ls ih =>
    intro nm x S hs hst
    show dictLookup (ls.foldl styleLine (styleLine nm line)).2 x = some S
    exact ih (styleLine nm line) x S
      (styleLine_styles_preserve nm line x S hs
        (hst line (List.mem_cons_self _ _)))
      (fun l hl => hst l (List.mem_cons_of_mem _ hl))

/-- **C9** (amended). For every diagram text containing an edge endpoint
whose id `x` was never declared by the node pass, the node `x` is
synthesized from its first endpoint occurrence: with no bracketed label the
raw identifier becomes both id and label with plain (no-fill) styling, and
with a bracketed label that label (quote-stripped) becomes the node's label
with rectangle / light-blue styling — provided no style directive targets
`x` (a style line overrides the fill afterwards, see the
counterexample). -/
theorem mermaid_synthesizes_undeclared (content x occ : List Char)
    (hnode : dictLookup (nodePass (mermaidBodyLines content)).1 x = none)
    (hocc : firstSynthOcc x (mermaidBodyLines content) = some occ)
    (hstyle : ∀ line ∈ mermaidBodyLines content,
      (lc "style ").isPrefixOf (pyStrip line) = true →
      (pySplitSpace2 (pyStrip line)).getD 1 [] ≠ x) :
    dictLookup (process_mermaid_parse content).nodes x
      = some (match searchBracket (pyStrip occ) with
              | some v => stripQuotes v
              | none => x)
    ∧ dictLookup (process_mermaid_parse content).styles x
      = some (match searchBracket (pyStrip occ) with
              | some _ => rectStyle
              | none => plainStyle) := by
  have hsynth := foldl_synthPart_first (synthCandidates (mermaidBodyLines content))
    (nodePass (mermaidBodyLines content)) x occ hnode hocc
  rw [← synthesisPass_eq] at hsynth
  constructor
  · show dictLookup (stylePass (mermaidBodyLines content)
        (synthesisPass (mermaidBodyLines content)
          (nodePass (mermaidBodyLines content)))).1 x = _
    rw [stylePass_nodes]
    exact hsynth.1
  · show dictLookup (stylePass (mermaidBodyLines content)
        (synthesisPass (mermaidBodyLines content)
          (nodePass (mermaidBodyLines content)))).2 x = _
    exact stylePass_styles_preserve (mermaidBodyLines content) _ x _
      hsynth.2 hstyle

/-- Witness for C9 (amended): in `flowchart LR\nA --> X` the undeclared
target `X` is synthesized with label `X` and plain styling. -/
theorem mermaid_synthesizes_undeclared_witness :
    dictLookup (process_mermaid_parse (lc "flowchart LR\nA --> X")).nodes (lc "X")
      = some (lc "X")
    ∧ dictLookup (process_mermaid_parse (lc "flowchart LR\nA --> X")).styles (lc "X")
      = some plainStyle := by
  have h := mermaid_synthesizes_undeclared (lc "flowchart LR\nA --> X")
    (lc "X") (lc "X") (by decide) (by decide) (by decide)
  exact ⟨h.1.trans (by decide), h.2.trans (by decide)⟩

/-- Counterexample for C9 as stated: with a style directive
`style X fill:#ff0000` present, the synthesized undeclared endpoint `X`
ends with fill `#ff0000` and style `filled,rounded`, not the claimed
default plain (no-fill) styling. -/
theorem mermaid_style_overrides_counterexample :
    dictLookup (nodePass (mermaidBodyLines
        (lc "flowchart LR\nA --> X\nstyle X fill:#ff0000"))).1 (lc "X") = none
    ∧ dictLookup (process_mermaid_parse
        (lc "flowchart LR\nA --> X\nstyle X fill:#ff0000")).styles (lc "X")
      = some ⟨lc "plaintext", lc "filled,rounded", lc "#ff0000"⟩
    ∧ (⟨lc "plaintext", lc "filled,rounded", lc "#ff0000"⟩ : NodeStyle)
      ≠ plainStyle := by
  refine ⟨by decide, by decide, by decide⟩

end Md2Pdf
